import Mathlib

/-!
# Verification development for the `wemo` package (`wemo.go`)

The file embeds the Go package `wemo` (one source file, `wemo.go`) and settles
a list of properties of it.

## Modelling conventions

* Go strings are modelled as lists of characters (`GoString`).  Every byte the
  code inspects (`|`, digits, signs, letters of number syntax) is ASCII, so
  splitting and number parsing act the same way on code points as on bytes.
* Go `int` is the 64-bit signed integer of the usual platforms; values are
  mathematical integers and the range check of `strconv.Atoi` is explicit.
* A `float64` is modelled by its bit-level content: sign, integer significand
  and binary exponent (or an infinity, or NaN).  Conversions and divisions
  round to nearest, ties to even, as IEEE 754 prescribes.
* The standard library (`strings.Split`, `strconv.Atoi`, `strconv.ParseFloat`)
  is modelled from its documented behaviour.  What the network, the clock and
  `encoding/xml` answer is not determined by the package: it is a parameter
  (`Net`) of every operation that asks them.
-/

deriving instance DecidableEq for Except

namespace Wemo

/-! ## Strings -/

/-- Go `string`, as the list of its characters. -/
abbrev GoString := List Char

/-- Go `strings.Split(s, "|")`: the pieces of `s` between the separators.  A string
without separator is its own single piece; the empty string gives `[""]`. -/
def Split : GoString → List GoString
  | [] => [[]]
  | c :: cs =>
    if c = '|' then [] :: Split cs
    else
      match Split cs with
      | [] => [[c]]
      | t :: ts => (c :: t) :: ts

/-! ## `strconv.Atoi` -/

/-- The two error kinds of `strconv` (`ErrSyntax`, `ErrRange`). -/
inductive NumError where
  | errSyn
  | errRange
deriving DecidableEq, Repr

/-- Bit size of Go `int`. -/
def intSize : Nat := 64

/-- Largest `uint64`. -/
def maxUint64 : Nat := 2 ^ 64 - 1

/-- Value of an ASCII decimal digit, `none` for any other character. -/
def digitVal (c : Char) : Option Nat :=
  if '0' ≤ c ∧ c ≤ '9' then some (c.toNat - 48) else none

/-- The digit loop of `strconv.ParseUint(s, 10, 64)`, with the value read so far:
a character that is no digit is a syntax error, a value beyond `uint64` a range
error, whichever comes first. -/
def parseUintLoop : GoString → Nat → Except NumError Nat
  | [], n => .ok n
  | c :: cs, n =>
    match digitVal c with
    | none => .error .errSyn
    | some d =>
      if n * 10 + d > maxUint64 then .error .errRange
      else parseUintLoop cs (n * 10 + d)

/-- Go `strconv.ParseUint(s, 10, 64)`. -/
def ParseUint (s : GoString) : Except NumError Nat :=
  match s with
  | [] => .error .errSyn
  | _ => parseUintLoop s 0

/-- Go `strconv.Atoi(s)`: an optional sign, then decimal digits, the value within
the range of `int`. -/
def Atoi (s : GoString) : Except NumError Int :=
  match s with
  | [] => .error .errSyn
  | c :: rest =>
    let neg := c = '-'
    let digits := if c = '+' ∨ c = '-' then rest else s
    match ParseUint digits with
    | .error e => .error e
    | .ok un =>
      let cutoff : Nat := 2 ^ (intSize - 1)
      if ¬ neg ∧ un ≥ cutoff then .error .errRange
      else if neg ∧ un > cutoff then .error .errRange
      else .ok (if neg then - (un : Int) else (un : Int))

/-! ## `float64` -/

/-- A `float64` (or `float32`) value.  `finite neg mant exp` is
`(-1)^neg * mant * 2^exp`; the values produced by `roundRatio` are in the
canonical form of the format: the significand of a normal number has exactly
`mantbits + 1` bits, a subnormal number or a zero has the least exponent. -/
inductive Float64 where
  | finite (neg : Bool) (mant : Nat) (exp : Int)
  | inf (neg : Bool)
  | nan
deriving DecidableEq, Repr

/-- The parameters of a binary floating-point format, as in `strconv`
(`floatInfo`): explicit significand bits, exponent bits, bias. -/
structure FloatInfo where
  mantbits : Nat
  expbits : Nat
  bias : Int
deriving DecidableEq, Repr

/-- The format of `float32`. -/
def float32info : FloatInfo := { mantbits := 23, expbits := 8, bias := -127 }

/-- The format of `float64`. -/
def float64info : FloatInfo := { mantbits := 52, expbits := 11, bias := -1023 }

/-- Least exponent of a normal number (`-126`, `-1022`). -/
def FloatInfo.emin (f : FloatInfo) : Int := f.bias + 1

/-- Greatest exponent of a finite number (`127`, `1023`). -/
def FloatInfo.emax (f : FloatInfo) : Int := - f.bias

/-- Number of binary digits of `n`, by halving at most `fuel` times. -/
def bitLenAux : Nat → Nat → Nat
  | 0, _ => 0
  | fuel + 1, n => if n = 0 then 0 else bitLenAux fuel (n / 2) + 1

/-- Number of binary digits of `n` (`0` for `0`). -/
def bitLen (n : Nat) : Nat := bitLenAux n n

/-- The value of format `f` nearest to `(-1)^neg * num / den` (`den > 0`), ties to
the even significand; an infinity when the rounded value exceeds the format. -/
def roundRatio (f : FloatInfo) (neg : Bool) (num den : Nat) : Float64 :=
  if num = 0 then .finite neg 0 (f.emin - f.mantbits)
  else
    let e0 : Int := (bitLen num : Int) - (bitLen den : Int)
    let ge : Bool :=
      if 0 ≤ e0 then decide (den * 2 ^ e0.toNat ≤ num)
      else decide (den ≤ num * 2 ^ (- e0).toNat)
    let e : Int := if ge then e0 else e0 - 1
    let s : Int := max e f.emin - f.mantbits
    let n : Nat := if s < 0 then num * 2 ^ (- s).toNat else num
    let d : Nat := if s < 0 then den else den * 2 ^ s.toNat
    let q : Nat := n / d
    let r : Nat := n % d
    let m : Nat := if 2 * r > d ∨ (2 * r = d ∧ q % 2 = 1) then q + 1 else q
    let m1 : Nat := if m = 2 ^ (f.mantbits + 1) then 2 ^ f.mantbits else m
    let s1 : Int := if m = 2 ^ (f.mantbits + 1) then s + 1 else s
    if s1 + f.mantbits > f.emax then .inf neg else .finite neg m1 s1

/-- The `float64` nearest to `(-1)^neg * num / den`. -/
def Float64.ofRatio (neg : Bool) (num den : Nat) : Float64 :=
  roundRatio float64info neg num den

/-- Go conversion `float64(val)` of an `int`. -/
def Float64.ofInt (v : Int) : Float64 :=
  Float64.ofRatio (decide (v < 0)) v.natAbs 1

/-- The zero value of `float64` (`+0`). -/
def Float64.zero : Float64 := Float64.ofInt 0

/-- Go `x / y` on `float64`. -/
def Float64.div : Float64 → Float64 → Float64
  | .nan, _ => .nan
  | _, .nan => .nan
  | .inf _, .inf _ => .nan
  | .inf s, .finite t _ _ => .inf (xor s t)
  | .finite s _ _, .inf t => .finite (xor s t) 0 (float64info.emin - float64info.mantbits)
  | .finite s m e, .finite t n g =>
    if n = 0 then (if m = 0 then .nan else .inf (xor s t))
    else Float64.ofRatio (xor s t) (m * 2 ^ (e - g).toNat) (n * 2 ^ (g - e).toNat)

/-! ## `strconv.ParseFloat` -/

/-- Value of a hexadecimal digit, `none` for any other character. -/
def hexVal (c : Char) : Option Nat :=
  if '0' ≤ c ∧ c ≤ '9' then some (c.toNat - 48)
  else if 'a' ≤ c ∧ c ≤ 'f' then some (c.toNat - 87)
  else if 'A' ≤ c ∧ c ≤ 'F' then some (c.toNat - 55)
  else none

/-- ASCII lower-casing of one character, as `commonPrefixLenIgnoreCase` does it. -/
def toLowerASCII (c : Char) : Char :=
  if 'A' ≤ c ∧ c ≤ 'Z' then Char.ofNat (c.toNat + 32) else c

/-- Go `commonPrefixLenIgnoreCase(s, pre)`, `pre` in lower case. -/
def commonPrefixLenIgnoreCase : GoString → GoString → Nat
  | c :: cs, p :: ps => if toLowerASCII c = p then commonPrefixLenIgnoreCase cs ps + 1 else 0
  | _, _ => 0

/-- The `inf` / `infinity` case of `special`: the number of characters matched. -/
def infLen (s : GoString) : Option Nat :=
  let n := commonPrefixLenIgnoreCase s "infinity".toList
  let n1 := if 3 < n ∧ n < 8 then 3 else n
  if n1 = 3 ∨ n1 = 8 then some n1 else none

/-- Go `special(s)`: the value and the length of a leading `inf`, `infinity`
(optionally signed) or `nan`, in any case. -/
def special (s : GoString) : Option (Float64 × Nat) :=
  match s with
  | [] => none
  | c :: rest =>
    if c = '+' ∨ c = '-' then (infLen rest).map (fun n => (Float64.inf (decide (c = '-')), 1 + n))
    else if c = 'i' ∨ c = 'I' then (infLen s).map (fun n => (Float64.inf false, n))
    else if c = 'n' ∨ c = 'N' then
      (if commonPrefixLenIgnoreCase s "nan".toList = 3 then some (Float64.nan, 3) else none)
    else none

/-- The state of the significand loop of `readFloat`. -/
structure MantState where
  sawdot : Bool
  sawdigits : Bool
  underscores : Bool
  mant : Nat
  frac : Nat
deriving DecidableEq, Repr

/-- The significand loop of `readFloat`: digits, underscores and at most one
point; returns the state and the unread rest.  `mant` is the integer all digits
spell, `frac` the number of digits after the point. -/
def readMantissa (hex : Bool) : GoString → MantState → MantState × GoString
  | [], st => (st, [])
  | c :: cs, st =>
    if c = '_' then readMantissa hex cs { st with underscores := true }
    else if c = '.' then
      (if st.sawdot then (st, c :: cs) else readMantissa hex cs { st with sawdot := true })
    else
      match (if hex then hexVal c else digitVal c) with
      | some d =>
        readMantissa hex cs
          { st with
            sawdigits := true
            mant := st.mant * (if hex then 16 else 10) + d
            frac := if st.sawdot then st.frac + 1 else st.frac }
      | none => (st, c :: cs)

/-- The exponent loop of `readFloat`: digits and underscores; the exponent stops
growing once it has reached `10000`. -/
def readExpDigits : GoString → Nat → Bool → Nat × Bool × GoString
  | [], e, us => (e, us, [])
  | c :: cs, e, us =>
    if c = '_' then readExpDigits cs e true
    else
      match digitVal c with
      | some d => readExpDigits cs (if e < 10000 then e * 10 + d else e) us
      | none => (e, us, c :: cs)

/-- What `underscoreOK` remembers of the last character. -/
inductive Saw where
  | start
  | digit
  | under
  | other
deriving DecidableEq, Repr

/-- The loop of `underscoreOK`: an underscore must stand between digits. -/
def underscoreLoop (hex : Bool) : GoString → Saw → Bool
  | [], saw => decide (saw ≠ Saw.under)
  | c :: cs, saw =>
    if (digitVal c).isSome ∨ (hex = true ∧ (hexVal c).isSome) then underscoreLoop hex cs Saw.digit
    else if c = '_' then (if saw ≠ Saw.digit then false else underscoreLoop hex cs Saw.under)
    else if saw = Saw.under then false
    else underscoreLoop hex cs Saw.other

/-- Go `underscoreOK(s)`. -/
def underscoreOK (s : GoString) : Bool :=
  let s1 : GoString :=
    match s with
    | c :: rest => if c = '-' ∨ c = '+' then rest else s
    | [] => s
  match s1 with
  | '0' :: p :: rest =>
    if p = 'b' ∨ p = 'B' ∨ p = 'o' ∨ p = 'O' ∨ p = 'x' ∨ p = 'X' then
      underscoreLoop (decide (p = 'x' ∨ p = 'X')) rest Saw.digit
    else underscoreLoop false s1 Saw.start
  | _ => underscoreLoop false s1 Saw.start

/-- A floating-point literal as read: `(-1)^neg * mant * 10^exp`, or
`(-1)^neg * mant * 2^exp` when `hex`. -/
structure FloatLit where
  neg : Bool
  hex : Bool
  mant : Nat
  exp : Int
deriving DecidableEq, Repr

/-- The optional exponent part of `readFloat`, after the significand: `none` when
malformed, else the exponent, whether it holds an underscore, and the rest. -/
def readExponent (hex : Bool) (s : GoString) : Option (Int × Bool × GoString) :=
  match s with
  | [] => if hex then none else some (0, false, [])
  | c :: rest =>
    if (hex = false ∧ (c = 'e' ∨ c = 'E')) ∨ (hex = true ∧ (c = 'p' ∨ c = 'P')) then
      match rest with
      | [] => none
      | c1 :: rest1 =>
        let esign : Int := if c1 = '-' then -1 else 1
        let body := if c1 = '+' ∨ c1 = '-' then rest1 else rest
        match body with
        | [] => none
        | c2 :: _ =>
          if (digitVal c2).isSome then
            match readExpDigits body 0 false with
            | (e, us, rest2) => some ((e : Int) * esign, us, rest2)
          else none
    else if hex then none
    else some (0, false, s)

/-- Go `readFloat(s)`: the literal at the start of `s` and the unread rest, `none`
when there is no well-formed literal. -/
def readFloat (s : GoString) : Option (FloatLit × GoString) :=
  match s with
  | [] => none
  | c :: rest =>
    let neg : Bool := decide (c = '-')
    let s1 : GoString := if c = '+' ∨ c = '-' then rest else s
    let hex : Bool :=
      match s1 with
      | '0' :: x :: _ :: _ => decide (x = 'x' ∨ x = 'X')
      | _ => false
    let s2 : GoString := if hex then s1.drop 2 else s1
    match readMantissa hex s2 ⟨false, false, false, 0, 0⟩ with
    | (st, s3) =>
      if st.sawdigits = false then none
      else
        match readExponent hex s3 with
        | none => none
        | some (e, us, s4) =>
          let dp : Int := - ((if hex then 4 else 1) * (st.frac : Int)) + e
          if (st.underscores ∨ us) ∧ underscoreOK (s.take (s.length - s4.length)) = false then none
          else some (⟨neg, hex, st.mant, if st.mant = 0 then 0 else dp⟩, s4)

/-- The value of format `f` nearest to a literal. -/
def roundLit (f : FloatInfo) (l : FloatLit) : Float64 :=
  let b : Nat := if l.hex then 2 else 10
  roundRatio f l.neg (l.mant * b ^ l.exp.toNat) (b ^ (- l.exp).toNat)

/-- A `float32` value as the `float64` equal to it. -/
def widen : Float64 → Float64
  | .finite neg m e => Float64.ofRatio neg (m * 2 ^ e.toNat) (2 ^ (- e).toNat)
  | x => x

/-- Go `strconv.ParseFloat(s, 32)`: the `float32` nearest to the decimal or
hexadecimal literal `s`, as a `float64`; `inf`, `infinity` and `nan` are read
too.  Text that is no literal is a syntax error, a value beyond `float32` a
range error. -/
def ParseFloat32 (s : GoString) : Except NumError Float64 :=
  match special s with
  | some (v, n) => if n = s.length then .ok v else .error .errSyn
  | none =>
    match readFloat s with
    | none => .error .errSyn
    | some (l, rest) =>
      if rest ≠ [] then .error .errSyn
      else
        match roundLit float32info l with
        | .inf _ => .error .errRange
        | v => .ok (widen v)

/-! ## The telemetry snapshot and its decoder -/

/-- Go `xml.Name`. -/
structure XmlName where
  Space : GoString
  Local : GoString
deriving DecidableEq, Repr

/-- The struct `wemoInsight`. -/
structure wemoInsight where
  XMLName : XmlName
  InsightParams : GoString
  State : Bool
  LastChange : Int
  OnSeconds : Int
  OnSecondsToday : Int
  OnSecondsTwoWeeks : Int
  AverageWatt : Float64
  CurrentW : Float64
  EnergyToday : Float64
  EnergyTwoWeeks : Float64
deriving DecidableEq, Repr

/-- The zero value of `wemoInsight` (`var state wemoInsight`). -/
def wemoInsight.zero : wemoInsight :=
  { XMLName := ⟨[], []⟩
    InsightParams := []
    State := false
    LastChange := 0
    OnSeconds := 0
    OnSecondsToday := 0
    OnSecondsTwoWeeks := 0
    AverageWatt := Float64.zero
    CurrentW := Float64.zero
    EnergyToday := Float64.zero
    EnergyTwoWeeks := Float64.zero }

/-- The method `(*wemoInsight).parse`: the receiver after the call. -/
def wemoInsight.parse (i : wemoInsight) : wemoInsight :=
  let vars := Split i.InsightParams
  if vars.length < 10 then i
  else
    let i0 := if vars.getD 0 [] = ['1'] then { i with State := true } else i
    let i1 :=
      match Atoi (vars.getD 1 []) with
      | .ok val => { i0 with LastChange := val }
      | .error _ => i0
    let i2 :=
      match Atoi (vars.getD 2 []) with
      | .ok val => { i1 with OnSeconds := val }
      | .error _ => i1
    let i3 :=
      match Atoi (vars.getD 3 []) with
      | .ok val => { i2 with OnSecondsToday := val }
      | .error _ => i2
    let i4 :=
      match Atoi (vars.getD 4 []) with
      | .ok val => { i3 with OnSecondsTwoWeeks := val }
      | .error _ => i3
    let i6 :=
      match Atoi (vars.getD 6 []) with
      | .ok val => { i4 with AverageWatt := Float64.ofInt val }
      | .error _ => i4
    let i7 :=
      match Atoi (vars.getD 7 []) with
      | .ok val => { i6 with CurrentW := (Float64.ofInt val).div (Float64.ofInt 1000) }
      | .error _ => i6
    let i8 :=
      match Atoi (vars.getD 8 []) with
      | .ok val =>
        { i7 with EnergyToday := ((Float64.ofInt val).div (Float64.ofInt 1000)).div (Float64.ofInt 60) }
      | .error _ => i7
    match ParseFloat32 (vars.getD 9 []) with
    | .ok val =>
      { i8 with EnergyTwoWeeks := (val.div (Float64.ofInt 1000)).div (Float64.ofInt 60) }
    | .error _ => i8

/-! ## The device handle and the outside world -/

/-- A Go `error` value. -/
structure GoError where
  msg : GoString
deriving DecidableEq, Repr

/-- The struct `WemoSwitch`. -/
structure WemoSwitch where
  Host : GoString
  name : GoString
  lastUpdated : Int
  Insight : wemoInsight
deriving DecidableEq, Repr

/-- The function `NewWemo`. -/
def NewWemo (host name : GoString) : WemoSwitch :=
  { Host := host, name := name, lastUpdated := 0, Insight := wemoInsight.zero }

/-- The method `Name`. -/
def WemoSwitch.Name (w : WemoSwitch) : GoString := w.name

/-- The method `ID`. -/
def WemoSwitch.ID (w : WemoSwitch) : GoString := w.name

/-- The method `LastUpdated`. -/
def WemoSwitch.LastUpdated (w : WemoSwitch) : Int := w.lastUpdated

/-- The method `State`. -/
def WemoSwitch.State (w : WemoSwitch) : Bool := w.Insight.State

/-- The method `CurrentW`. -/
def WemoSwitch.CurrentW (w : WemoSwitch) : Float64 := w.Insight.CurrentW

/-- What the package puts into an `*http.Request`: method, URL, the headers in the
order of the `Header.Add` calls (keys as written in the source), body. -/
structure Request where
  method : GoString
  url : GoString
  header : List (GoString × GoString)
  body : GoString
deriving DecidableEq, Repr

/-- What the package reads of an `*http.Response`: what `ioutil.ReadAll(resp.Body)`
returns, the bytes read and the read error if there is one. -/
structure Response where
  body : GoString
  readErr : Option GoError
deriving DecidableEq, Repr

/-- The struct `wemoSetupXML`. -/
structure wemoSetupXML where
  XMLName : XmlName
  FriendlyName : GoString
deriving DecidableEq, Repr

/-- The zero value of `wemoSetupXML`. -/
def wemoSetupXML.zero : wemoSetupXML := { XMLName := ⟨[], []⟩, FriendlyName := [] }

/-- What `Discover` reads of a `goupnp.RootDevice`: `URLBaseStr` and `URLBase.Host`. -/
structure RootDevice where
  URLBaseStr : GoString
  URLBaseHost : GoString
deriving DecidableEq, Repr

/-- What `Discover` reads of a `goupnp.MaybeRootDevice`: the pointer `Root`, `none`
when it is nil. -/
structure MaybeRootDevice where
  Root : Option RootDevice
deriving DecidableEq, Repr

/-- The answers of the outside world during one operation of the package.
* `newRequestErr method url`: the error of `http.NewRequest`, which checks the
  method and parses the URL.
* `clientDo req`: the result of `client.Do(req)`.
* `httpGet k url`: the result of the `k`-th call of `http.Get` (counted from 0).
* `discoverDevices urn`: the result of `goupnp.DiscoverDevices(urn)`.
* `unmarshalInsight body v`, `unmarshalSetup body v`: what `xml.Unmarshal(body, &v)`
  leaves in `v`, and its error.
* `now`: `time.Now().Unix()`. -/
structure Net where
  newRequestErr : GoString → GoString → Option GoError
  clientDo : Request → Except GoError Response
  httpGet : Nat → GoString → Except GoError Response
  discoverDevices : GoString → List MaybeRootDevice × Option GoError
  unmarshalInsight : GoString → wemoInsight → wemoInsight × Option GoError
  unmarshalSetup : GoString → wemoSetupXML → wemoSetupXML × Option GoError
  now : Int

/-- Go `http.NewRequest(method, url, strings.NewReader(body))`. -/
def NewRequest (net : Net) (method url body : GoString) : Except GoError Request :=
  match net.newRequestErr method url with
  | some err => .error err
  | none => .ok { method := method, url := url, header := [], body := body }

/-- Go `req.Header.Add(key, value)`. -/
def Request.addHeader (r : Request) (key value : GoString) : Request :=
  { r with header := r.header ++ [(key, value)] }

/-- The method `setBinaryState`: the error it returns. -/
def WemoSwitch.setBinaryState (net : Net) (s : WemoSwitch) (signal : GoString) : Option GoError :=
  let binaryState : GoString :=
    "<?xml version=\"1.0\" encoding=\"utf-8\"?><s:Envelope xmlns:s=\"http://schemas.xmlsoap.org/soap/envelope/\" s:encodingStyle=\"http://schemas.xmlsoap.org/soap/encoding/\"><s:Body><u:SetBinaryState xmlns:u=\"urn:Belkin:service:basicevent:1\"><BinaryState>".toList
      ++ signal ++ "</BinaryState></u:SetBinaryState></s:Body></s:Envelope>".toList
  let url : GoString := "http://".toList ++ s.Host ++ "/upnp/control/basicevent1".toList
  match NewRequest net "POST".toList url binaryState with
  | .error err => some err
  | .ok req =>
    let req1 := req.addHeader "SOAPACTION".toList "\"urn:Belkin:service:basicevent:1#SetBinaryState\"".toList
    let req2 := req1.addHeader "Content-type".toList "text/xml; charset=\"utf-8\"".toList
    match net.clientDo req2 with
    | .error err => some err
    | .ok _ => none

/-- The method `On`: the error returned and the receiver after the call. -/
def WemoSwitch.On (net : Net) (w : WemoSwitch) : Option GoError × WemoSwitch :=
  match w.setBinaryState net ['1'] with
  | some err => (some err, w)
  | none => (none, { w with Insight := { w.Insight with State := true } })

/-- The method `Off`: the error returned and the receiver after the call. -/
def WemoSwitch.Off (net : Net) (w : WemoSwitch) : Option GoError × WemoSwitch :=
  match w.setBinaryState net ['0'] with
  | some err => (some err, w)
  | none => (none, { w with Insight := { w.Insight with State := false } })

/-- The method `getRequest`. -/
def WemoSwitch.getRequest (net : Net) (s : WemoSwitch) (action some : GoString) :
    Except GoError Request :=
  let serviceUrn : GoString := "urn:Belkin:service:".toList ++ some ++ ":1".toList
  let body : GoString :=
    "<u:".toList ++ action ++ " xmlns:u=\"".toList ++ serviceUrn ++ "\"></u:".toList ++ action
      ++ ">".toList
  let reqXml : GoString :=
    "<?xml version=\"1.0\" encoding=\"utf-8\"?><s:Envelope xmlns:s=\"http://schemas.xmlsoap.org/soap/envelope/\" s:encodingStyle=\"http://schemas.xmlsoap.org/soap/encoding/\"><s:Body>".toList
      ++ body ++ "</s:Body></s:Envelope>".toList
  let url : GoString := "http://".toList ++ s.Host ++ "/upnp/control/".toList ++ some ++ "1".toList
  match NewRequest net "POST".toList url reqXml with
  | .error err => .error err
  | .ok req =>
    let req1 :=
      req.addHeader "SOAPACTION".toList
        ("\"urn:Belkin:service:".toList ++ some ++ ":1#".toList ++ action ++ "\"".toList)
    .ok (req1.addHeader "Content-type".toList "text/xml; charset=\"utf-8\"".toList)

/-- The method `Update`: the error returned and the receiver after the call. -/
def WemoSwitch.Update (net : Net) (s : WemoSwitch) : Option GoError × WemoSwitch :=
  match s.getRequest net "GetInsightParams".toList "insight".toList with
  | .error err => (some err, s)
  | .ok req =>
    match net.clientDo req with
    | .error err => (some err, s)
    | .ok resp =>
      match resp.readErr with
      | some err => (some err, s)
      | none =>
        let state := (net.unmarshalInsight resp.body wemoInsight.zero).1
        let state1 := state.parse
        (none, { s with Insight := state1, lastUpdated := net.now })

/-! ## Discovery -/

/-- The function `getWemoInfo`, for the `k`-th fetch: body and error. -/
def getWemoInfo (net : Net) (k : Nat) (url : GoString) : GoString × Option GoError :=
  match net.httpGet k url with
  | .error err => ([], some err)
  | .ok resp => (resp.body, resp.readErr)

/-- How a call of `Discover` ends: it returns a list and an error, or it
dereferences a nil `Root`. -/
inductive DiscoverResult where
  | returned (switches : List WemoSwitch) (err : Option GoError)
  | nilDeref
deriving DecidableEq, Repr

/-- The loop of `Discover` from position `i` on, `switches` being the handles
appended so far. -/
def discoverLoop (net : Net) : Nat → List MaybeRootDevice → List WemoSwitch → DiscoverResult
  | _, [], switches => .returned switches none
  | i, d :: ds, switches =>
    match d.Root with
    | none => .nilDeref
    | some root =>
      match getWemoInfo net i root.URLBaseStr with
      | (_, some err) => .returned switches (some err)
      | (setupXml, none) =>
        let setup := (net.unmarshalSetup setupXml wemoSetupXML.zero).1
        let wemoSwitch : WemoSwitch :=
          { Host := root.URLBaseHost
            name := setup.FriendlyName
            lastUpdated := 0
            Insight := wemoInsight.zero }
        discoverLoop net (i + 1) ds (switches ++ [wemoSwitch])

/-- The function `Discover`. -/
def Discover (net : Net) : DiscoverResult :=
  match net.discoverDevices "urn:Belkin:service:basicevent:1".toList with
  | (_, some err) => .returned [] (some err)
  | (devices, none) =>
    if devices.length = 0 then .returned [] none
    else discoverLoop net 0 devices []

/-! ## Vocabulary of the statements -/

/-- Token `k` of a payload: `vars[k]` after `vars := strings.Split(payload, "|")`
(the empty string when there is no such token). -/
def tok (s : GoString) (k : Nat) : GoString := (Split s).getD k []

/-- The nine decoded fields of a snapshot: all of `wemoInsight` but `XMLName` and
`InsightParams`. -/
structure Decoded where
  State : Bool
  LastChange : Int
  OnSeconds : Int
  OnSecondsToday : Int
  OnSecondsTwoWeeks : Int
  AverageWatt : Float64
  CurrentW : Float64
  EnergyToday : Float64
  EnergyTwoWeeks : Float64
deriving DecidableEq, Repr

/-- The nine decoded fields of a snapshot. -/
def wemoInsight.decoded (i : wemoInsight) : Decoded :=
  { State := i.State
    LastChange := i.LastChange
    OnSeconds := i.OnSeconds
    OnSecondsToday := i.OnSecondsToday
    OnSecondsTwoWeeks := i.OnSecondsTwoWeeks
    AverageWatt := i.AverageWatt
    CurrentW := i.CurrentW
    EnergyToday := i.EnergyToday
    EnergyTwoWeeks := i.EnergyTwoWeeks }

/-- The snapshot `i` with the payload `s` in `InsightParams`. -/
def wemoInsight.withPayload (i : wemoInsight) (s : GoString) : wemoInsight :=
  { i with InsightParams := s }

/-- The zero snapshot holding the payload `s`: what `parse` is applied to when
nothing else has been decoded. -/
def wemoInsight.ofPayload (s : GoString) : wemoInsight :=
  wemoInsight.zero.withPayload s

/-- The value a token leaves in an `int` field: the integer read, or the old value
when `strconv.Atoi` fails. -/
def keepInt (r : Except NumError Int) (old : Int) : Int :=
  match r with
  | .ok v => v
  | .error _ => old

/-- The value a token leaves in a `float64` field: `conv` of what was read, or the
old value when the conversion fails. -/
def keepFloat {α : Type} (r : Except NumError α) (conv : α → Float64) (old : Float64) : Float64 :=
  match r with
  | .ok v => conv v
  | .error _ => old

/-- A field of the snapshot, whatever its type. -/
inductive FieldVal where
  | flag (b : Bool)
  | int (v : Int)
  | float (v : Float64)
  | absent
deriving DecidableEq, Repr

/-- The field that token `k` of the payload is decoded into (none for token 5 and
from token 10 on). -/
def fieldAt (k : Nat) (i : wemoInsight) : FieldVal :=
  match k with
  | 0 => .flag i.State
  | 1 => .int i.LastChange
  | 2 => .int i.OnSeconds
  | 3 => .int i.OnSecondsToday
  | 4 => .int i.OnSecondsTwoWeeks
  | 6 => .float i.AverageWatt
  | 7 => .float i.CurrentW
  | 8 => .float i.EnergyToday
  | 9 => .float i.EnergyTwoWeeks
  | _ => .absent

/-- Whether the conversion `parse` applies to token `k` accepts the text `t`:
`strconv.ParseFloat(t, 32)` for token 9, `strconv.Atoi(t)` for the others. -/
def tokenParses (k : Nat) (t : GoString) : Bool :=
  if k = 9 then (ParseFloat32 t).toBool else (Atoi t).toBool

/-- What field `k` holds after `parse`, from token `k` alone and the snapshot
before the call. -/
def decodeField (k : Nat) (t : GoString) (i : wemoInsight) : FieldVal :=
  match k with
  | 0 => .flag (i.State || decide (t = ['1']))
  | 1 => .int (keepInt (Atoi t) i.LastChange)
  | 2 => .int (keepInt (Atoi t) i.OnSeconds)
  | 3 => .int (keepInt (Atoi t) i.OnSecondsToday)
  | 4 => .int (keepInt (Atoi t) i.OnSecondsTwoWeeks)
  | 6 => .float (keepFloat (Atoi t) Float64.ofInt i.AverageWatt)
  | 7 => .float (keepFloat (Atoi t) (fun v => (Float64.ofInt v).div (Float64.ofInt 1000)) i.CurrentW)
  | 8 =>
    .float
      (keepFloat (Atoi t)
        (fun v => ((Float64.ofInt v).div (Float64.ofInt 1000)).div (Float64.ofInt 60)) i.EnergyToday)
  | 9 =>
    .float
      (keepFloat (ParseFloat32 t)
        (fun v => (v.div (Float64.ofInt 1000)).div (Float64.ofInt 60)) i.EnergyTwoWeeks)
  | _ => .absent

/-! ### Decimal integers, as the specification speaks of them -/

/-- An ASCII decimal digit. -/
def isDigit (c : Char) : Bool := decide ('0' ≤ c ∧ c ≤ '9')

/-- The text without its sign, if it has one. -/
def unsignedPart (t : GoString) : GoString :=
  match t with
  | [] => []
  | c :: rest => if c = '+' ∨ c = '-' then rest else c :: rest

/-- A decimal integer: an optional sign, then at least one digit and only digits. -/
def isDecimalInt (t : GoString) : Bool :=
  decide (unsignedPart t ≠ []) && (unsignedPart t).all isDigit

/-- The number a string of digits spells. -/
def digitsValue (ds : GoString) : Nat :=
  ds.foldl (fun n c => n * 10 + (c.toNat - 48)) 0

/-- The integer a decimal integer spells. -/
def decimalValue (t : GoString) : Int :=
  match t with
  | '-' :: rest => - (digitsValue rest : Int)
  | _ => (digitsValue (unsignedPart t) : Int)

/-- The values of Go `int` (64 bits). -/
def inIntRange (v : Int) : Prop := -(2 : Int) ^ 63 ≤ v ∧ v ≤ (2 : Int) ^ 63 - 1

instance (v : Int) : Decidable (inIntRange v) := by
  unfold inIntRange
  infer_instance

/-! ### Concrete payloads -/

/-- The payload of the decoding example: ten well-formed tokens. -/
def samplePayload : GoString :=
  "1|1609459200|120|3600|50400|1209600|5|7000|250000|7500000.0".toList

/-- A payload of three tokens. -/
def shortPayload : GoString := "1|2|3".toList

/-- The sample payload with `abc` for token 6. -/
def badTokenPayload : GoString :=
  "1|1609459200|120|3600|50400|1209600|abc|7000|250000|7500000.0".toList

/-- A payload whose token 1 is the decimal integer `2^63`, one beyond the largest
`int`, and whose token 9 is `0.1`, which no `float32` equals. -/
def overflowPayload : GoString :=
  "1|9223372036854775808|120|3600|50400|1209600|5|7000|250000|0.1".toList

/-! ### The wire format, as the specification gives it -/

/-- The SOAP request envelope of the specification, with `{ACTION}`, `{SERVICE}` and
`{PARAMS}` filled in. -/
def soapEnvelope (action service params : GoString) : GoString :=
  "<?xml version=\"1.0\" encoding=\"utf-8\"?><s:Envelope xmlns:s=\"http://schemas.xmlsoap.org/soap/envelope/\" s:encodingStyle=\"http://schemas.xmlsoap.org/soap/encoding/\"><s:Body><u:".toList
    ++ action ++ " xmlns:u=\"urn:Belkin:service:".toList ++ service ++ ":1\">".toList ++ params
    ++ "</u:".toList ++ action ++ "></s:Body></s:Envelope>".toList

/-- The URL of the control endpoint of a service on a host. -/
def controlURL (host service : GoString) : GoString :=
  "http://".toList ++ host ++ "/upnp/control/".toList ++ service ++ "1".toList

/-- The quoted value of the `SOAPACTION` header. -/
def soapAction (action service : GoString) : GoString :=
  "\"urn:Belkin:service:".toList ++ service ++ ":1#".toList ++ action ++ "\"".toList

/-- The request of the specification for an action of a service, with the given
parameters inside the action element. -/
def actionRequest (host action service params : GoString) : Request :=
  { method := "POST".toList
    url := controlURL host service
    header :=
      [("SOAPACTION".toList, soapAction action service),
        ("Content-type".toList, "text/xml; charset=\"utf-8\"".toList)]
    body := soapEnvelope action service params }

/-- The `SetBinaryState` request of the specification. -/
def binaryStateRequest (host signal : GoString) : Request :=
  actionRequest host "SetBinaryState".toList "basicevent".toList
    ("<BinaryState>".toList ++ signal ++ "</BinaryState>".toList)

/-- The handle `Discover` builds for a device with root `r` whose setup description
is `body`: the host of the device, the friendly name the decoder leaves, no telemetry. -/
def handleFor (net : Net) (r : RootDevice) (body : GoString) : WemoSwitch :=
  { Host := r.URLBaseHost
    name := (net.unmarshalSetup body wemoSetupXML.zero).1.FriendlyName
    lastUpdated := 0
    Insight := wemoInsight.zero }

/-- The world `net` with every error of `xml.Unmarshal` on a setup description erased:
the decoder leaves what it left, and reports nothing. -/
def Net.dropDecodeErrors (net : Net) : Net :=
  { net with unmarshalSetup := fun body v => ((net.unmarshalSetup body v).1, none) }

/-- The fetch of a setup description fails with `err`: `http.Get` fails with it, or
`http.Get` succeeds and reading the body fails with it. -/
def fetchFails (net : Net) (k : Nat) (url : GoString) (err : GoError) : Prop :=
  net.httpGet k url = .error err ∨
    ∃ resp, net.httpGet k url = .ok resp ∧ resp.readErr = some err

/-- The service type `Discover` searches for. -/
def basicEventURN : GoString := "urn:Belkin:service:basicevent:1".toList

/-! ### Concrete worlds -/

/-- A world in which every request is accepted and answered with an empty body, every
decoding succeeds and changes nothing, and no device is discovered. -/
def quietNet : Net :=
  { newRequestErr := fun _ _ => none
    clientDo := fun _ => .ok ⟨[], none⟩
    httpGet := fun _ _ => .ok ⟨[], none⟩
    discoverDevices := fun _ => ([], none)
    unmarshalInsight := fun _ v => (v, none)
    unmarshalSetup := fun _ v => (v, none)
    now := 0 }

/-- A world in which the device does not answer: `client.Do` fails. -/
def deadNet : Net :=
  { quietNet with clientDo := fun _ => .error ⟨"connection refused".toList⟩ }

/-- A world in which the device answers the Insight request with the sample payload,
at time 1700000000. -/
def insightNet : Net :=
  { quietNet with
    clientDo := fun _ => .ok ⟨"<s:Envelope>...</s:Envelope>".toList, none⟩
    unmarshalInsight := fun _ v => ({ v with InsightParams := samplePayload }, none)
    now := 1700000000 }

/-- A world in which the device answers with text that is no XML: the decoder reports
an error and leaves its target as it was. -/
def garbageNet : Net :=
  { quietNet with
    clientDo := fun _ => .ok ⟨"not xml".toList, none⟩
    httpGet := fun _ _ => .ok ⟨"not xml".toList, none⟩
    discoverDevices :=
      fun _ => ([⟨some ⟨"http://192.168.1.20:49153/setup.xml".toList, "192.168.1.20:49153".toList⟩⟩], none)
    unmarshalInsight := fun _ v => (v, some ⟨"EOF".toList⟩)
    unmarshalSetup := fun _ v => (v, some ⟨"EOF".toList⟩)
    now := 1700000000 }

/-- A world with three devices in which the second setup description is cut short:
`http.Get` succeeds and reading the body fails. -/
def secondReadFailsNet : Net :=
  { quietNet with
    discoverDevices := fun _ =>
      ([⟨some ⟨"http://10.0.0.1:49153/setup.xml".toList, "10.0.0.1:49153".toList⟩⟩,
        ⟨some ⟨"http://10.0.0.2:49153/setup.xml".toList, "10.0.0.2:49153".toList⟩⟩,
        ⟨some ⟨"http://10.0.0.3:49153/setup.xml".toList, "10.0.0.3:49153".toList⟩⟩], none)
    httpGet := fun k _ =>
      if k = 1 then .ok ⟨"<ro".toList, some ⟨"unexpected EOF".toList⟩⟩
      else .ok ⟨"<root>...</root>".toList, none⟩
    unmarshalSetup := fun _ v => ({ v with FriendlyName := "Lamp".toList }, none) }

/-- A world with two devices, the second without a root device; no setup description
decodes. -/
def nilRootNet : Net :=
  { quietNet with
    discoverDevices := fun _ =>
      ([⟨some ⟨"http://10.0.0.1:49153/setup.xml".toList, "10.0.0.1:49153".toList⟩⟩,
        ⟨none⟩], none)
    httpGet := fun _ _ => .ok ⟨"not xml".toList, none⟩
    unmarshalSetup := fun _ v => (v, some ⟨"EOF".toList⟩) }

/-- A handle with a cached snapshot and a time of last update. -/
def staleSwitch : WemoSwitch :=
  { Host := "192.168.1.20:49153".toList
    name := "Lamp".toList
    lastUpdated := 5
    Insight := { wemoInsight.zero with State := true, LastChange := 42, OnSeconds := 7 } }

/-- Three discovered devices. -/
def threeDevices : List MaybeRootDevice :=
  [⟨some ⟨"http://10.0.0.1:49153/setup.xml".toList, "10.0.0.1:49153".toList⟩⟩,
    ⟨some ⟨"http://10.0.0.2:49153/setup.xml".toList, "10.0.0.2:49153".toList⟩⟩,
    ⟨some ⟨"http://10.0.0.3:49153/setup.xml".toList, "10.0.0.3:49153".toList⟩⟩]

/-- A world with three devices in which the second fetch of a setup description
fails; a setup description decodes to the friendly name `Lamp`. -/
def secondFetchFailsNet : Net :=
  { quietNet with
    discoverDevices := fun _ => (threeDevices, none)
    httpGet := fun k _ =>
      if k = 1 then .error ⟨"timeout".toList⟩ else .ok ⟨"<root>...</root>".toList, none⟩
    unmarshalSetup := fun _ v => ({ v with FriendlyName := "Lamp".toList }, none) }

/-! ## Lemmas on `strings.Split` -/

theorem Split_ne_nil (s : GoString) : Split s ≠ [] := by
  cases s with
  | nil => simp [Split]
  | cons c cs =>
    unfold Split
    split
    · simp
    · split <;> simp

theorem Split_append_sep (p x : GoString) : Split (p ++ '|' :: x) = Split p ++ Split x := by
  induction p with
  | nil => simp [Split]
  | cons c cs ih =>
    by_cases hc : c = '|'
    · simp [Split, hc, ih]
    · have hne := Split_ne_nil cs
      cases hs : Split cs with
      | nil => exact absurd hs hne
      | cons t ts => simp [Split, hc, ih, hs]

theorem tok_append_sep (p x : GoString) (k : Nat) (hk : k < (Split p).length) :
    tok (p ++ '|' :: x) k = tok p k := by
  unfold tok
  rw [Split_append_sep]
  exact List.getD_append _ _ _ _ hk

/-! ## The decoder, field by field -/

theorem parse_short (i : wemoInsight) (h : (Split i.InsightParams).length < 10) :
    i.parse = i := by
  unfold wemoInsight.parse
  simp only [h, if_true]

theorem parse_long (i : wemoInsight) (h : 10 ≤ (Split i.InsightParams).length) :
    i.parse =
      { XMLName := i.XMLName
        InsightParams := i.InsightParams
        State := i.State || decide (tok i.InsightParams 0 = ['1'])
        LastChange := keepInt (Atoi (tok i.InsightParams 1)) i.LastChange
        OnSeconds := keepInt (Atoi (tok i.InsightParams 2)) i.OnSeconds
        OnSecondsToday := keepInt (Atoi (tok i.InsightParams 3)) i.OnSecondsToday
        OnSecondsTwoWeeks := keepInt (Atoi (tok i.InsightParams 4)) i.OnSecondsTwoWeeks
        AverageWatt := keepFloat (Atoi (tok i.InsightParams 6)) Float64.ofInt i.AverageWatt
        CurrentW :=
          keepFloat (Atoi (tok i.InsightParams 7))
            (fun v => (Float64.ofInt v).div (Float64.ofInt 1000)) i.CurrentW
        EnergyToday :=
          keepFloat (Atoi (tok i.InsightParams 8))
            (fun v => ((Float64.ofInt v).div (Float64.ofInt 1000)).div (Float64.ofInt 60))
            i.EnergyToday
        EnergyTwoWeeks :=
          keepFloat (ParseFloat32 (tok i.InsightParams 9))
            (fun v => (v.div (Float64.ofInt 1000)).div (Float64.ofInt 60)) i.EnergyTwoWeeks } := by
  unfold wemoInsight.parse tok
  lift_lets
  extract_lets vars i0 i1 i2 i3 i4 i6 i7 i8
  have h' : ¬ vars.length < 10 := Nat.not_lt.mpr h
  rw [if_neg h']
  have e0 : i0 = { i with State := i.State || decide (vars.getD 0 [] = ['1']) } := by
    by_cases h0 : vars.getD 0 [] = ['1'] <;>
      simp only [i0, h0, if_true, if_false, decide_True, decide_False, Bool.or_true,
        Bool.or_false]
  clear_value i0
  have e1 : i1 = { i0 with LastChange := keepInt (Atoi (vars.getD 1 [])) i0.LastChange } := by
    cases h1 : Atoi (vars.getD 1 []) <;> simp only [i1, h1, keepInt]
  clear_value i1
  have e2 : i2 = { i1 with OnSeconds := keepInt (Atoi (vars.getD 2 [])) i1.OnSeconds } := by
    cases h1 : Atoi (vars.getD 2 []) <;> simp only [i2, h1, keepInt]
  clear_value i2
  have e3 : i3 = { i2 with OnSecondsToday := keepInt (Atoi (vars.getD 3 [])) i2.OnSecondsToday } := by
    cases h1 : Atoi (vars.getD 3 []) <;> simp only [i3, h1, keepInt]
  clear_value i3
  have e4 :
      i4 = { i3 with OnSecondsTwoWeeks := keepInt (Atoi (vars.getD 4 [])) i3.OnSecondsTwoWeeks } := by
    cases h1 : Atoi (vars.getD 4 []) <;> simp only [i4, h1, keepInt]
  clear_value i4
  have e6 :
      i6 = { i4 with AverageWatt := keepFloat (Atoi (vars.getD 6 [])) Float64.ofInt i4.AverageWatt } := by
    cases h1 : Atoi (vars.getD 6 []) <;> simp only [i6, h1, keepFloat]
  clear_value i6
  have e7 : i7 = { i6 with CurrentW := (keepFloat (Atoi (vars.getD 7 []))
      (fun v => (Float64.ofInt v).div (Float64.ofInt 1000)) i6.CurrentW) } := by
    cases h1 : Atoi (vars.getD 7 []) <;> simp only [i7, h1, keepFloat]
  clear_value i7
  have e8 : i8 = { i7 with EnergyToday := (keepFloat (Atoi (vars.getD 8 []))
      (fun v => ((Float64.ofInt v).div (Float64.ofInt 1000)).div (Float64.ofInt 60))
      i7.EnergyToday) } := by
    cases h1 : Atoi (vars.getD 8 []) <;> simp only [i8, h1, keepFloat]
  clear_value i8
  cases h9 : ParseFloat32 (vars.getD 9 []) <;>
    simp only [keepFloat, e8, e7, e6, e4, e3, e2, e1, e0]

theorem fieldAt_parse (k : Nat) (i : wemoInsight) (h : 10 ≤ (Split i.InsightParams).length) :
    fieldAt k i.parse = decodeField k (tok i.InsightParams k) i := by
  rw [parse_long i h]
  unfold fieldAt decodeField
  split <;> rfl

theorem decodeField_withPayload (k : Nat) (t : GoString) (i : wemoInsight) (s : GoString) :
    decodeField k t (i.withPayload s) = decodeField k t i := by
  unfold decodeField wemoInsight.withPayload
  split <;> rfl

theorem decodeField_of_fail (k : Nat) (t : GoString) (i : wemoInsight)
    (hk : k ∈ [1, 2, 3, 4, 6, 7, 8, 9]) (hfail : tokenParses k t = false) :
    decodeField k t i = fieldAt k i := by
  simp only [List.mem_cons, List.mem_singleton, List.not_mem_nil, or_false] at hk
  rcases hk with rfl | rfl | rfl | rfl | rfl | rfl | rfl | rfl <;>
    simp only [tokenParses, Nat.reduceEqDiff, if_false, if_true] at hfail <;>
    simp only [decodeField, fieldAt]
  all_goals first
    | (cases h : Atoi t <;> simp only [h, Except.toBool, Bool.true_eq_false] at hfail ⊢
       rfl)
    | (cases h : ParseFloat32 t <;> simp only [h, Except.toBool, Bool.true_eq_false] at hfail ⊢
       rfl)

/-! ## `strconv.Atoi` on decimal integers -/

theorem digitVal_of_isDigit (c : Char) (h : isDigit c = true) :
    digitVal c = some (c.toNat - 48) := by
  unfold isDigit at h
  unfold digitVal
  rw [if_pos (of_decide_eq_true h)]

theorem foldl_digits_ge (ds : GoString) (n : Nat) :
    n ≤ ds.foldl (fun n c => n * 10 + (c.toNat - 48)) n := by
  induction ds generalizing n with
  | nil => exact Nat.le_refl n
  | cons c cs ih =>
    simp only [List.foldl_cons]
    exact Nat.le_trans (by omega) (ih (n * 10 + (c.toNat - 48)))

theorem parseUintLoop_digits (ds : GoString) (n : Nat) (hall : ds.all isDigit = true)
    (hle : ds.foldl (fun n c => n * 10 + (c.toNat - 48)) n ≤ maxUint64) :
    parseUintLoop ds n = .ok (ds.foldl (fun n c => n * 10 + (c.toNat - 48)) n) := by
  induction ds generalizing n with
  | nil => rfl
  | cons c cs ih =>
    simp only [List.all_cons, Bool.and_eq_true] at hall
    simp only [List.foldl_cons] at hle ⊢
    have hstep := foldl_digits_ge cs (n * 10 + (c.toNat - 48))
    have hno : ¬ n * 10 + (c.toNat - 48) > maxUint64 := by omega
    unfold parseUintLoop
    rw [digitVal_of_isDigit c hall.1]
    simp only [hno, if_false]
    exact ih _ hall.2 hle

theorem ParseUint_digits (ds : GoString) (hne : ds ≠ []) (hall : ds.all isDigit = true)
    (hle : digitsValue ds ≤ maxUint64) : ParseUint ds = .ok (digitsValue ds) := by
  unfold ParseUint
  cases ds with
  | nil => exact absurd rfl hne
  | cons c cs => exact parseUintLoop_digits (c :: cs) 0 hall hle

theorem Atoi_decimal (t : GoString) (hd : isDecimalInt t = true)
    (hr : inIntRange (decimalValue t)) : Atoi t = .ok (decimalValue t) := by
  unfold isDecimalInt at hd
  simp only [Bool.and_eq_true, decide_eq_true_eq] at hd
  obtain ⟨hne, hall⟩ := hd
  unfold inIntRange at hr
  cases t with
  | nil => exact absurd rfl hne
  | cons c rest =>
    by_cases hm : c = '-'
    · subst hm
      simp only [unsignedPart, or_true, if_true] at hne hall
      simp only [decimalValue] at hr ⊢
      have hle : digitsValue rest ≤ maxUint64 := by
        unfold maxUint64
        omega
      simp only [Atoi, or_true, if_true, ParseUint_digits rest hne hall hle, intSize]
      have h1 : ¬ digitsValue rest > 2 ^ (64 - 1) := by omega
      simp [h1]
      omega
    · by_cases hp : c = '+'
      · subst hp
        simp only [unsignedPart, true_or, if_true] at hne hall
        have hv : decimalValue ('+' :: rest) = (digitsValue rest : Int) := by
          simp [decimalValue, unsignedPart]
        rw [hv] at hr ⊢
        have hle : digitsValue rest ≤ maxUint64 := by
          unfold maxUint64
          omega
        simp only [Atoi, true_or, if_true, ParseUint_digits rest hne hall hle, intSize]
        have h1 : ¬ digitsValue rest ≥ 2 ^ (64 - 1) := by omega
        simp [h1]
        omega
      · have hu : unsignedPart (c :: rest) = c :: rest := by
          simp [unsignedPart, hm, hp]
        rw [hu] at hne hall
        have hv : decimalValue (c :: rest) = (digitsValue (c :: rest) : Int) := by
          unfold decimalValue
          split
          · rename_i heq
            simp only [List.cons.injEq] at heq
            exact absurd heq.1 hm
          · rw [hu]
        rw [hv] at hr ⊢
        have hle : digitsValue (c :: rest) ≤ maxUint64 := by
          unfold maxUint64
          omega
        simp only [Atoi, hm, hp, or_self, if_false, ParseUint_digits (c :: rest) hne hall hle,
          intSize]
        have h1 : ¬ digitsValue (c :: rest) ≥ 2 ^ (64 - 1) := by omega
        simp [h1]
        omega

/-! ## The claims on the telemetry decoder -/

/-- C1 (as amended).  For every payload with at least 10 tokens in which tokens 1, 2, 3,
4, 6, 7 and 8 are decimal integers within the range of `int` and token 9 is read by
`strconv.ParseFloat(_, 32)` as `f9`, `parse` on the otherwise zero snapshot yields
`State = (token 0 is "1")`, the four `int` fields equal to tokens 1 to 4,
`AverageWatt = float64(token 6)`, `CurrentW = float64(token 7) / 1000`,
`EnergyToday = float64(token 8) / 1000 / 60` and `EnergyTwoWeeks = f9 / 1000 / 60`, the
divisions being `float64` divisions; and token 5 has no effect on the decoded fields. -/
theorem parse_decodes_valid_payload (s : GoString) (f9 : Float64)
    (hlen : 10 ≤ (Split s).length)
    (hint : ∀ k ∈ [1, 2, 3, 4, 6, 7, 8],
      isDecimalInt (tok s k) = true ∧ inIntRange (decimalValue (tok s k)))
    (h9 : ParseFloat32 (tok s 9) = .ok f9) :
    (wemoInsight.ofPayload s).parse =
        { XMLName := ⟨[], []⟩
          InsightParams := s
          State := decide (tok s 0 = ['1'])
          LastChange := decimalValue (tok s 1)
          OnSeconds := decimalValue (tok s 2)
          OnSecondsToday := decimalValue (tok s 3)
          OnSecondsTwoWeeks := decimalValue (tok s 4)
          AverageWatt := Float64.ofInt (decimalValue (tok s 6))
          CurrentW := (Float64.ofInt (decimalValue (tok s 7))).div (Float64.ofInt 1000)
          EnergyToday :=
            ((Float64.ofInt (decimalValue (tok s 8))).div (Float64.ofInt 1000)).div
              (Float64.ofInt 60)
          EnergyTwoWeeks := (f9.div (Float64.ofInt 1000)).div (Float64.ofInt 60) } ∧
      ∀ s5 : GoString, 10 ≤ (Split s5).length →
        (∀ k, k < 10 → k ≠ 5 → tok s5 k = tok s k) →
        (wemoInsight.ofPayload s5).parse.decoded = (wemoInsight.ofPayload s).parse.decoded := by
  have a1 := Atoi_decimal _ (hint 1 (by simp)).1 (hint 1 (by simp)).2
  have a2 := Atoi_decimal _ (hint 2 (by simp)).1 (hint 2 (by simp)).2
  have a3 := Atoi_decimal _ (hint 3 (by simp)).1 (hint 3 (by simp)).2
  have a4 := Atoi_decimal _ (hint 4 (by simp)).1 (hint 4 (by simp)).2
  have a6 := Atoi_decimal _ (hint 6 (by simp)).1 (hint 6 (by simp)).2
  have a7 := Atoi_decimal _ (hint 7 (by simp)).1 (hint 7 (by simp)).2
  have a8 := Atoi_decimal _ (hint 8 (by simp)).1 (hint 8 (by simp)).2
  have hs : (wemoInsight.ofPayload s).InsightParams = s := rfl
  have hl : 10 ≤ (Split (wemoInsight.ofPayload s).InsightParams).length := hlen
  constructor
  · rw [parse_long _ hl]
    simp only [hs, a1, a2, a3, a4, a6, a7, a8, h9, keepInt, keepFloat]
    simp only [wemoInsight.ofPayload, wemoInsight.withPayload, wemoInsight.zero,
      Bool.false_or]
  · intro s5 hlen5 hsame
    have hs5 : (wemoInsight.ofPayload s5).InsightParams = s5 := rfl
    have hl5 : 10 ≤ (Split (wemoInsight.ofPayload s5).InsightParams).length := hlen5
    rw [parse_long _ hl, parse_long _ hl5]
    simp only [hs, hs5, hsame 0 (by omega) (by omega), hsame 1 (by omega) (by omega),
      hsame 2 (by omega) (by omega), hsame 3 (by omega) (by omega),
      hsame 4 (by omega) (by omega), hsame 6 (by omega) (by omega),
      hsame 7 (by omega) (by omega), hsame 8 (by omega) (by omega),
      hsame 9 (by omega) (by omega), wemoInsight.decoded]
    rfl

/-- C1, the decoding example: the sample payload decodes to on, 1609459200, 120, 3600,
50400, average 5 W, current 7 W, the `float64` nearest to 250000/60000 and 125. -/
theorem parse_decodes_sample_payload :
    (wemoInsight.ofPayload samplePayload).parse.decoded =
      { State := true
        LastChange := 1609459200
        OnSeconds := 120
        OnSecondsToday := 3600
        OnSecondsTwoWeeks := 50400
        AverageWatt := Float64.ofInt 5
        CurrentW := Float64.ofInt 7
        EnergyToday := Float64.ofRatio false 250000 60000
        EnergyTwoWeeks := Float64.ofInt 125 } :=
  (congrArg wemoInsight.decoded
      (parse_decodes_valid_payload samplePayload (Float64.ofInt 7500000) (by decide)
        (by decide) (by decide)).1).trans (by decide)

set_option maxRecDepth 100000 in
/-- C1 as stated fails: in `overflowPayload` every integer token is a decimal integer
and token 9 is the decimal number `0.1`, yet token 1 (`2^63`) leaves `LastChange` at 0,
and `EnergyTwoWeeks` is not what `0.1 / 1000 / 60` gives in `float64` arithmetic
(the token is first rounded to a `float32`). -/
theorem parse_overflowPayload_counterexample :
    10 ≤ (Split overflowPayload).length ∧
      (∀ k ∈ [1, 2, 3, 4, 6, 7, 8], isDecimalInt (tok overflowPayload k) = true) ∧
      decimalValue (tok overflowPayload 1) = 9223372036854775808 ∧
      (wemoInsight.ofPayload overflowPayload).parse.LastChange = 0 ∧
      tok overflowPayload 9 = "0.1".toList ∧
      (wemoInsight.ofPayload overflowPayload).parse.EnergyTwoWeeks ≠
        ((Float64.ofRatio false 1 10).div (Float64.ofInt 1000)).div (Float64.ofInt 60) := by
  decide

/-- C2.  For every snapshot whose payload splits into fewer than 10 tokens, `parse`
changes nothing: every field is as it was (and `parse` has no error to signal). -/
theorem parse_short_payload_noop (i : wemoInsight)
    (h : (Split i.InsightParams).length < 10) : i.parse = i :=
  parse_short i h

/-- C2, the example: `1|2|3` and the empty payload have fewer than 10 tokens, and the
zero snapshot holding either stays as it is, with `State = false`. -/
theorem parse_short_payload_noop_witness :
    (Split shortPayload).length < 10 ∧
      (wemoInsight.ofPayload shortPayload).parse = wemoInsight.ofPayload shortPayload ∧
      (wemoInsight.ofPayload shortPayload).parse.State = false ∧
      (wemoInsight.ofPayload []).parse = wemoInsight.ofPayload [] :=
  ⟨by decide, parse_short_payload_noop (wemoInsight.ofPayload shortPayload) (by decide),
    by decide, parse_short_payload_noop (wemoInsight.ofPayload []) (by decide)⟩

/-- C3.  For payloads `p`, `q` of at least 10 tokens put into the same snapshot and every
numeric index `k` among 1, 2, 3, 4, 6, 7, 8, 9: the field of index `k` after `parse`
depends on token `k` only; if token `k` fails to parse, that field keeps the value it
had (zero in a zero snapshot); and every other field is the same for `p` as for any `q`
that differs from `p` in token `k` only, a valid token included. -/
theorem parse_field_depends_on_own_token (base : wemoInsight) (p q : GoString) (k : Nat)
    (hk : k ∈ [1, 2, 3, 4, 6, 7, 8, 9])
    (hp : 10 ≤ (Split p).length) (hq : 10 ≤ (Split q).length) :
    (tok p k = tok q k →
        fieldAt k (base.withPayload p).parse = fieldAt k (base.withPayload q).parse) ∧
      (tokenParses k (tok p k) = false →
        fieldAt k (base.withPayload p).parse = fieldAt k base) ∧
      ((∀ m, m < 10 → m ≠ k → tok p m = tok q m) →
        ∀ m, m ≠ k →
          fieldAt m (base.withPayload p).parse = fieldAt m (base.withPayload q).parse) := by
  have ep : ∀ m, fieldAt m (base.withPayload p).parse = decodeField m (tok p m) base := by
    intro m
    rw [fieldAt_parse m _ hp]
    exact decodeField_withPayload m _ base p
  have eq : ∀ m, fieldAt m (base.withPayload q).parse = decodeField m (tok q m) base := by
    intro m
    rw [fieldAt_parse m _ hq]
    exact decodeField_withPayload m _ base q
  refine ⟨?_, ?_, ?_⟩
  · intro h
    rw [ep, eq, h]
  · intro h
    rw [ep]
    exact decodeField_of_fail k _ base hk h
  · intro h m hm
    rw [ep, eq]
    by_cases hlt : m < 10
    · rw [h m hlt hm]
    · have h10 : 10 ≤ m := Nat.le_of_not_lt hlt
      obtain ⟨n, rfl⟩ := Nat.exists_eq_add_of_le h10
      simp only [decodeField]
      split <;> first | rfl | omega

/-- C3, the example: with `abc` for token 6 the token fails to parse, `AverageWatt`
stays 0, and the other fields are those the sample payload decodes to. -/
theorem parse_bad_token_witness :
    tokenParses 6 (tok badTokenPayload 6) = false ∧
      fieldAt 6 (wemoInsight.ofPayload badTokenPayload).parse = FieldVal.float Float64.zero ∧
      (∀ m, m ≠ 6 →
        fieldAt m (wemoInsight.ofPayload badTokenPayload).parse =
          fieldAt m (wemoInsight.ofPayload samplePayload).parse) ∧
      (wemoInsight.ofPayload badTokenPayload).parse.decoded =
        { State := true
          LastChange := 1609459200
          OnSeconds := 120
          OnSecondsToday := 3600
          OnSecondsTwoWeeks := 50400
          AverageWatt := Float64.zero
          CurrentW := Float64.ofInt 7
          EnergyToday := Float64.ofRatio false 250000 60000
          EnergyTwoWeeks := Float64.ofInt 125 } :=
  ⟨by decide,
    (parse_field_depends_on_own_token wemoInsight.zero badTokenPayload samplePayload 6
      (by decide) (by decide) (by decide)).2.1 (by decide),
    (parse_field_depends_on_own_token wemoInsight.zero badTokenPayload samplePayload 6
      (by decide) (by decide) (by decide)).2.2 (by decide),
    by decide⟩

/-- C9.  For every payload `p` of at least 10 tokens and every string `x`, `parse` on
`p + "|" + x` decodes the same nine fields as `parse` on `p`, from any snapshot: tokens
from index 10 on have no influence. -/
theorem parse_ignores_tokens_beyond_ten (i : wemoInsight) (p x : GoString)
    (h : 10 ≤ (Split p).length) :
    (i.withPayload (p ++ '|' :: x)).parse.decoded = (i.withPayload p).parse.decoded := by
  have hp : (i.withPayload p).InsightParams = p := rfl
  have hx : (i.withPayload (p ++ '|' :: x)).InsightParams = p ++ '|' :: x := rfl
  have hlen : 10 ≤ (Split (p ++ '|' :: x)).length := by
    rw [Split_append_sep, List.length_append]
    omega
  have hl1 : 10 ≤ (Split (i.withPayload p).InsightParams).length := h
  have hl2 : 10 ≤ (Split (i.withPayload (p ++ '|' :: x)).InsightParams).length := hlen
  rw [parse_long _ hl1, parse_long _ hl2]
  simp only [hp, hx, wemoInsight.decoded, tok_append_sep p x _ (show 0 < _ by omega),
    tok_append_sep p x _ (show 1 < _ by omega), tok_append_sep p x _ (show 2 < _ by omega),
    tok_append_sep p x _ (show 3 < _ by omega), tok_append_sep p x _ (show 4 < _ by omega),
    tok_append_sep p x _ (show 6 < _ by omega), tok_append_sep p x _ (show 7 < _ by omega),
    tok_append_sep p x _ (show 8 < _ by omega), tok_append_sep p x _ (show 9 < _ by omega)]
  rfl

/-- C9, an example: an eleventh token appended to the sample payload changes no
decoded field. -/
theorem parse_ignores_tokens_beyond_ten_witness :
    10 ≤ (Split samplePayload).length ∧
      (wemoInsight.zero.withPayload (samplePayload ++ '|' :: "99|x".toList)).parse.decoded =
        (wemoInsight.zero.withPayload samplePayload).parse.decoded :=
  ⟨by decide,
    parse_ignores_tokens_beyond_ten wemoInsight.zero samplePayload "99|x".toList (by decide)⟩

/-! ## The claims on the device handle -/

set_option maxRecDepth 100000 in
theorem binaryState_body (signal : GoString) :
    "<?xml version=\"1.0\" encoding=\"utf-8\"?><s:Envelope xmlns:s=\"http://schemas.xmlsoap.org/soap/envelope/\" s:encodingStyle=\"http://schemas.xmlsoap.org/soap/encoding/\"><s:Body><u:SetBinaryState xmlns:u=\"urn:Belkin:service:basicevent:1\"><BinaryState>".toList
        ++ signal ++ "</BinaryState></u:SetBinaryState></s:Body></s:Envelope>".toList =
      soapEnvelope "SetBinaryState".toList "basicevent".toList
        ("<BinaryState>".toList ++ signal ++ "</BinaryState>".toList) := by
  have h1 :
      "<?xml version=\"1.0\" encoding=\"utf-8\"?><s:Envelope xmlns:s=\"http://schemas.xmlsoap.org/soap/envelope/\" s:encodingStyle=\"http://schemas.xmlsoap.org/soap/encoding/\"><s:Body><u:SetBinaryState xmlns:u=\"urn:Belkin:service:basicevent:1\"><BinaryState>".toList =
        "<?xml version=\"1.0\" encoding=\"utf-8\"?><s:Envelope xmlns:s=\"http://schemas.xmlsoap.org/soap/envelope/\" s:encodingStyle=\"http://schemas.xmlsoap.org/soap/encoding/\"><s:Body><u:".toList
          ++ ("SetBinaryState".toList ++ (" xmlns:u=\"urn:Belkin:service:".toList
          ++ ("basicevent".toList ++ (":1\">".toList ++ "<BinaryState>".toList)))) := by
    decide
  have h2 :
      "</BinaryState></u:SetBinaryState></s:Body></s:Envelope>".toList =
        "</BinaryState>".toList ++ ("</u:".toList ++ ("SetBinaryState".toList
          ++ "></s:Body></s:Envelope>".toList)) := by
    decide
  rw [h1, h2]
  simp only [soapEnvelope, List.append_assoc]

theorem setBinaryState_eq (net : Net) (w : WemoSwitch) (signal : GoString) :
    w.setBinaryState net signal =
      match net.newRequestErr "POST".toList (controlURL w.Host "basicevent".toList) with
      | some err => some err
      | none =>
        match net.clientDo (binaryStateRequest w.Host signal) with
        | .error err => some err
        | .ok _ => none := by
  have hurl :
      "http://".toList ++ w.Host ++ "/upnp/control/basicevent1".toList =
        controlURL w.Host "basicevent".toList := by
    have h : "/upnp/control/basicevent1".toList =
        "/upnp/control/".toList ++ ("basicevent".toList ++ "1".toList) := by decide
    rw [h]
    simp only [controlURL, List.append_assoc]
  have hact :
      "\"urn:Belkin:service:basicevent:1#SetBinaryState\"".toList =
        soapAction "SetBinaryState".toList "basicevent".toList := by
    decide
  unfold WemoSwitch.setBinaryState NewRequest
  simp only [hurl, binaryState_body, hact]
  cases net.newRequestErr "POST".toList (controlURL w.Host "basicevent".toList) with
  | some err => rfl
  | none => rfl

/-- C4.  For every handle and every world: `setBinaryState` fails exactly when
`http.NewRequest` or `client.Do` on the `SetBinaryState` request fails, with that
error.  If it succeeds, `On` returns no error and the cached flag is true (`Off`:
false), nothing else changing; if it fails, `On` and `Off` return its error and the
handle, the cached flag included, is as it was. -/
theorem On_Off_follow_setBinaryState (net : Net) (w : WemoSwitch) :
    (∀ signal, w.setBinaryState net signal =
        match net.newRequestErr "POST".toList (controlURL w.Host "basicevent".toList) with
        | some err => some err
        | none =>
          match net.clientDo (binaryStateRequest w.Host signal) with
          | .error err => some err
          | .ok _ => none) ∧
      (w.setBinaryState net ['1'] = none →
        w.On net = (none, { w with Insight := { w.Insight with State := true } }) ∧
          (w.On net).2.State = true) ∧
      (∀ err, w.setBinaryState net ['1'] = some err →
        w.On net = (some err, w) ∧ (w.On net).2.State = w.State) ∧
      (w.setBinaryState net ['0'] = none →
        w.Off net = (none, { w with Insight := { w.Insight with State := false } }) ∧
          (w.Off net).2.State = false) ∧
      (∀ err, w.setBinaryState net ['0'] = some err →
        w.Off net = (some err, w) ∧ (w.Off net).2.State = w.State) := by
  refine ⟨fun signal => setBinaryState_eq net w signal, ?_, ?_, ?_, ?_⟩
  · intro h
    simp only [WemoSwitch.On, h, WemoSwitch.State, and_self]
  · intro err h
    simp only [WemoSwitch.On, h, and_self]
  · intro h
    simp only [WemoSwitch.Off, h, WemoSwitch.State, and_self]
  · intro err h
    simp only [WemoSwitch.Off, h, and_self]

/-- C4, examples: when the device answers, `On` sets the flag of a handle that was off
and `Off` clears the flag of one that was on; when `client.Do` fails, `On` and `Off`
return the error and the flag of `staleSwitch` stays true. -/
theorem On_Off_examples :
    (NewWemo "10.0.0.1:49153".toList "Lamp".toList).State = false ∧
      ((NewWemo "10.0.0.1:49153".toList "Lamp".toList).On quietNet).1 = none ∧
      ((NewWemo "10.0.0.1:49153".toList "Lamp".toList).On quietNet).2.State = true ∧
      (staleSwitch.Off quietNet).1 = none ∧
      (staleSwitch.Off quietNet).2.State = false ∧
      staleSwitch.On deadNet = (some ⟨"connection refused".toList⟩, staleSwitch) ∧
      staleSwitch.Off deadNet = (some ⟨"connection refused".toList⟩, staleSwitch) ∧
      (staleSwitch.Off deadNet).2.State = true :=
  ⟨by decide,
    congrArg Prod.fst
      ((On_Off_follow_setBinaryState quietNet
        (NewWemo "10.0.0.1:49153".toList "Lamp".toList)).2.1 (by decide)).1,
    ((On_Off_follow_setBinaryState quietNet
      (NewWemo "10.0.0.1:49153".toList "Lamp".toList)).2.1 (by decide)).2,
    by decide, by decide, by decide, by decide, by decide⟩

set_option maxRecDepth 100000 in
/-- C5.  For every host, action and service, `getRequest(action, service)` calls
`http.NewRequest` with the method `POST` and the URL
`"http://" + host + "/upnp/control/" + service + "1"`; unless that call rejects them, the
request built has that method and URL, the header `SOAPACTION` with the quoted value
`"urn:Belkin:service:{service}:1#{action}"`, the header `Content-type` with
`text/xml; charset="utf-8"`, and for body the SOAP envelope of the wire format with
empty `{PARAMS}`. -/
theorem getRequest_builds_action_request (net : Net) (w : WemoSwitch)
    (action service : GoString) :
    w.getRequest net action service =
        (match net.newRequestErr "POST".toList (controlURL w.Host service) with
        | some err => .error err
        | none => .ok (actionRequest w.Host action service [])) ∧
      (actionRequest w.Host action service []).url =
        "http://".toList ++ w.Host ++ "/upnp/control/".toList ++ service ++ "1".toList ∧
      (actionRequest w.Host action service []).header =
        [("SOAPACTION".toList,
            "\"urn:Belkin:service:".toList ++ service ++ ":1#".toList ++ action ++ "\"".toList),
          ("Content-type".toList, "text/xml; charset=\"utf-8\"".toList)] := by
  refine ⟨?_, rfl, rfl⟩
  have h1 :
      "<?xml version=\"1.0\" encoding=\"utf-8\"?><s:Envelope xmlns:s=\"http://schemas.xmlsoap.org/soap/envelope/\" s:encodingStyle=\"http://schemas.xmlsoap.org/soap/encoding/\"><s:Body><u:".toList =
        "<?xml version=\"1.0\" encoding=\"utf-8\"?><s:Envelope xmlns:s=\"http://schemas.xmlsoap.org/soap/envelope/\" s:encodingStyle=\"http://schemas.xmlsoap.org/soap/encoding/\"><s:Body>".toList
          ++ "<u:".toList := by
    decide
  have h2 : " xmlns:u=\"urn:Belkin:service:".toList =
      " xmlns:u=\"".toList ++ "urn:Belkin:service:".toList := by decide
  have h3 : ":1\">".toList = ":1".toList ++ "\">".toList := by decide
  have h4 : "\"></u:".toList = "\">".toList ++ "</u:".toList := by decide
  have h5 : "></s:Body></s:Envelope>".toList = ">".toList ++ "</s:Body></s:Envelope>".toList := by
    decide
  have hbody :
      "<?xml version=\"1.0\" encoding=\"utf-8\"?><s:Envelope xmlns:s=\"http://schemas.xmlsoap.org/soap/envelope/\" s:encodingStyle=\"http://schemas.xmlsoap.org/soap/encoding/\"><s:Body>".toList
          ++ ("<u:".toList ++ action ++ " xmlns:u=\"".toList
            ++ ("urn:Belkin:service:".toList ++ service ++ ":1".toList) ++ "\"></u:".toList
            ++ action ++ ">".toList)
          ++ "</s:Body></s:Envelope>".toList =
        soapEnvelope action service [] := by
    unfold soapEnvelope
    rw [h1, h2, h3, h4, h5]
    simp only [List.append_assoc, List.nil_append]
  unfold WemoSwitch.getRequest NewRequest
  simp only [hbody]
  cases hn : net.newRequestErr "POST".toList
      ("http://".toList ++ w.Host ++ "/upnp/control/".toList ++ service ++ "1".toList) with
  | some err => simp only [controlURL, hn]
  | none =>
    simp only [controlURL, hn, actionRequest, Request.addHeader, soapAction, List.nil_append,
      List.singleton_append]

set_option maxRecDepth 100000 in
/-- C5, an example: the `GetInsightParams` request for the host `10.0.0.1:49153`. -/
theorem getRequest_example :
    (NewWemo "10.0.0.1:49153".toList "Lamp".toList).getRequest quietNet
        "GetInsightParams".toList "insight".toList =
      .ok
        { method := "POST".toList
          url := "http://10.0.0.1:49153/upnp/control/insight1".toList
          header :=
            [("SOAPACTION".toList, "\"urn:Belkin:service:insight:1#GetInsightParams\"".toList),
              ("Content-type".toList, "text/xml; charset=\"utf-8\"".toList)]
          body :=
            "<?xml version=\"1.0\" encoding=\"utf-8\"?><s:Envelope xmlns:s=\"http://schemas.xmlsoap.org/soap/envelope/\" s:encodingStyle=\"http://schemas.xmlsoap.org/soap/encoding/\"><s:Body><u:GetInsightParams xmlns:u=\"urn:Belkin:service:insight:1\"></u:GetInsightParams></s:Body></s:Envelope>".toList } :=
  (getRequest_builds_action_request quietNet _ _ _).1.trans (by decide)

/-- C6 (as amended).  For every handle and every world: if `Update` cannot build the
request, or `client.Do` fails, or reading the body fails, `Update` returns that error
and leaves the handle, its snapshot and time of last update included, as it was; and
whenever `Update` returns an error the handle is as it was.  A decode error is not
among them: once the body is read, `Update` returns no error, replaces the snapshot by
what `xml.Unmarshal` left, parsed, and sets the time, whatever `xml.Unmarshal` reports. -/
theorem Update_keeps_handle_on_transport_error (net : Net) (s : WemoSwitch) :
    (∀ err, s.getRequest net "GetInsightParams".toList "insight".toList = .error err →
        s.Update net = (some err, s)) ∧
      (∀ req err, s.getRequest net "GetInsightParams".toList "insight".toList = .ok req →
        net.clientDo req = .error err → s.Update net = (some err, s)) ∧
      (∀ req resp err, s.getRequest net "GetInsightParams".toList "insight".toList = .ok req →
        net.clientDo req = .ok resp → resp.readErr = some err → s.Update net = (some err, s)) ∧
      (∀ err, (s.Update net).1 = some err → (s.Update net).2 = s) ∧
      (∀ req resp, s.getRequest net "GetInsightParams".toList "insight".toList = .ok req →
        net.clientDo req = .ok resp → resp.readErr = none →
        s.Update net =
          (none,
            { s with
              Insight := (net.unmarshalInsight resp.body wemoInsight.zero).1.parse
              lastUpdated := net.now })) := by
  refine ⟨?_, ?_, ?_, ?_, ?_⟩
  · intro err h
    simp only [WemoSwitch.Update, h]
  · intro req err h hd
    simp only [WemoSwitch.Update, h, hd]
  · intro req resp err h hd hr
    simp only [WemoSwitch.Update, h, hd, hr]
  · intro err
    cases hg : s.getRequest net "GetInsightParams".toList "insight".toList with
    | error e => simp only [WemoSwitch.Update, hg, implies_true]
    | ok req =>
      cases hd : net.clientDo req with
      | error e => simp only [WemoSwitch.Update, hg, hd, implies_true]
      | ok resp =>
        cases hr : resp.readErr with
        | some e => simp only [WemoSwitch.Update, hg, hd, hr, implies_true]
        | none =>
          simp only [WemoSwitch.Update, hg, hd, hr]
          intro h
          exact absurd h (by simp)
  · intro req resp h hd hr
    simp only [WemoSwitch.Update, h, hd, hr]

set_option maxRecDepth 100000 in
/-- C6, an example of the amended claim: when `client.Do` fails, `Update` returns the
error and `staleSwitch` is unchanged. -/
theorem Update_keeps_handle_example :
    staleSwitch.Update deadNet = (some ⟨"connection refused".toList⟩, staleSwitch) :=
  (Update_keeps_handle_on_transport_error deadNet staleSwitch).2.1
    (actionRequest staleSwitch.Host "GetInsightParams".toList "insight".toList [])
    ⟨"connection refused".toList⟩ (by decide) (by decide)

/-- C6 as stated fails: in `garbageNet` the body is no XML and the decoder reports an
error, yet `Update` returns no error, the cached snapshot of `staleSwitch` is replaced
by the zero snapshot and the time of last update is set. -/
theorem Update_decode_error_counterexample :
    (garbageNet.unmarshalInsight "not xml".toList wemoInsight.zero).2 = some ⟨"EOF".toList⟩ ∧
      (staleSwitch.Update garbageNet).1 = none ∧
      (staleSwitch.Update garbageNet).2.Insight = wemoInsight.zero ∧
      (staleSwitch.Update garbageNet).2.Insight ≠ staleSwitch.Insight ∧
      (staleSwitch.Update garbageNet).2.lastUpdated = 1700000000 ∧
      staleSwitch.lastUpdated = 5 := by
  decide

/-- C8.  For every handle and every `Update` that returns no error, there is a response
whose body was read, and the cached snapshot afterwards is `parse` applied to what
`xml.Unmarshal` makes of that body from a zero snapshot; `Host` and `name` are
unchanged; and the snapshot is the same whatever snapshot and time the handle held
before, so that no earlier field (a flag set by `On` included) survives. -/
theorem Update_replaces_snapshot (net : Net) (s t : WemoSwitch)
    (h : s.Update net = (none, t)) :
    (∃ req resp, s.getRequest net "GetInsightParams".toList "insight".toList = .ok req ∧
        net.clientDo req = .ok resp ∧ resp.readErr = none ∧
        t.Insight = (net.unmarshalInsight resp.body wemoInsight.zero).1.parse ∧
        t.lastUpdated = net.now) ∧
      t.Host = s.Host ∧ t.name = s.name ∧
      ∀ (old : wemoInsight) (lu : Int),
        ({ s with Insight := old, lastUpdated := lu }.Update net).1 = none ∧
          ({ s with Insight := old, lastUpdated := lu }.Update net).2.Insight = t.Insight := by
  have hreq : ∀ (old : wemoInsight) (lu : Int),
      ({ s with Insight := old, lastUpdated := lu } : WemoSwitch).getRequest net
          "GetInsightParams".toList "insight".toList =
        s.getRequest net "GetInsightParams".toList "insight".toList := fun _ _ => rfl
  have key : ∃ req resp,
      s.getRequest net "GetInsightParams".toList "insight".toList = .ok req ∧
        net.clientDo req = .ok resp ∧ resp.readErr = none ∧
        t =
          { s with
            Insight := (net.unmarshalInsight resp.body wemoInsight.zero).1.parse
            lastUpdated := net.now } := by
    cases hg : s.getRequest net "GetInsightParams".toList "insight".toList with
    | error e =>
      simp only [WemoSwitch.Update, hg] at h
      simp at h
    | ok req =>
      cases hd : net.clientDo req with
      | error e =>
        simp only [WemoSwitch.Update, hg, hd] at h
        simp at h
      | ok resp =>
        cases hr : resp.readErr with
        | some e =>
          simp only [WemoSwitch.Update, hg, hd, hr] at h
          simp at h
        | none =>
          simp only [WemoSwitch.Update, hg, hd, hr, Prod.mk.injEq, true_and] at h
          exact ⟨req, resp, rfl, hd, hr, h.symm⟩
  obtain ⟨req, resp, hg, hd, hr, rfl⟩ := key
  refine ⟨⟨req, resp, hg, hd, hr, rfl, rfl⟩, rfl, rfl, ?_⟩
  intro old lu
  simp only [WemoSwitch.Update, hreq, hg, hd, hr, and_self]

/-- C8, an example: the sample payload comes back; the snapshot of `staleSwitch`
(on, `LastChange` 42, `OnSeconds` 7) is replaced by the decoded payload, host and name
staying. -/
theorem Update_replaces_snapshot_example :
    (staleSwitch.Update insightNet).1 = none ∧
      (staleSwitch.Update insightNet).2.Insight.decoded =
        { State := true
          LastChange := 1609459200
          OnSeconds := 120
          OnSecondsToday := 3600
          OnSecondsTwoWeeks := 50400
          AverageWatt := Float64.ofInt 5
          CurrentW := Float64.ofInt 7
          EnergyToday := Float64.ofRatio false 250000 60000
          EnergyTwoWeeks := Float64.ofInt 125 } ∧
      (staleSwitch.Update insightNet).2.Host = staleSwitch.Host ∧
      (staleSwitch.Update insightNet).2.name = staleSwitch.name :=
  ⟨by decide, by decide,
    (Update_replaces_snapshot insightNet staleSwitch (staleSwitch.Update insightNet).2
      (by decide)).2.1,
    (Update_replaces_snapshot insightNet staleSwitch (staleSwitch.Update insightNet).2
      (by decide)).2.2.1⟩

/-! ## The claims on discovery -/

theorem getWemoInfo_of_fetched (net : Net) (k : Nat) (url : GoString) (resp : Response)
    (h : net.httpGet k url = .ok resp) (hr : resp.readErr = none) :
    getWemoInfo net k url = (resp.body, none) := by
  simp only [getWemoInfo, h, hr]

theorem getWemoInfo_of_fetchFails (net : Net) (k : Nat) (url : GoString) (err : GoError)
    (h : fetchFails net k url err) : (getWemoInfo net k url).2 = some err := by
  rcases h with h | ⟨resp, h, hr⟩
  · simp only [getWemoInfo, h]
  · simp only [getWemoInfo, h, hr]

theorem fetchFails_of_getWemoInfo (net : Net) (k : Nat) (url : GoString) (err : GoError)
    (h : (getWemoInfo net k url).2 = some err) : fetchFails net k url err := by
  unfold getWemoInfo at h
  cases hg : net.httpGet k url with
  | error e =>
    rw [hg] at h
    simp only [Option.some.injEq] at h
    subst h
    exact Or.inl hg
  | ok resp =>
    rw [hg] at h
    exact Or.inr ⟨resp, hg, h⟩

theorem discoverLoop_prefix (net : Net) (rest : List MaybeRootDevice) :
    ∀ (pre : List MaybeRootDevice) (i : Nat) (acc handles : List WemoSwitch),
      handles.length = pre.length →
      (∀ j, j < pre.length → ∃ r body,
        pre[j]? = some ⟨some r⟩ ∧
          getWemoInfo net (i + j) r.URLBaseStr = (body, none) ∧
          handles[j]? = some (handleFor net r body)) →
      discoverLoop net i (pre ++ rest) acc =
        discoverLoop net (i + pre.length) rest (acc ++ handles) := by
  intro pre
  induction pre with
  | nil =>
    intro i acc handles hlen _
    have hnil : handles = [] := List.length_eq_zero.mp hlen
    subst hnil
    simp
  | cons p ps ih =>
    intro i acc handles hlen hpre
    cases handles with
    | nil => simp at hlen
    | cons h hs =>
      obtain ⟨r, body, hr, hfetch, hh⟩ := hpre 0 (by simp)
      simp only [List.getElem?_cons_zero, Nat.add_zero, Option.some.injEq] at hr hfetch hh
      have hroot : p.Root = some r := by rw [hr]
      have hstep :
          discoverLoop net i (p :: ps ++ rest) acc =
            discoverLoop net (i + 1) (ps ++ rest) (acc ++ [h]) := by
        simp only [List.cons_append, discoverLoop, hroot, hfetch, hh, handleFor]
        rfl
      rw [hstep]
      have hlen2 : hs.length = ps.length := by simpa using hlen
      have hpre2 : ∀ j, j < ps.length → ∃ r body,
          ps[j]? = some ⟨some r⟩ ∧
            getWemoInfo net (i + 1 + j) r.URLBaseStr = (body, none) ∧
            hs[j]? = some (handleFor net r body) := by
        intro j hj
        obtain ⟨r2, b2, h1, h2, h3⟩ := hpre (j + 1) (by simpa using hj)
        refine ⟨r2, b2, ?_, ?_, ?_⟩
        · simpa using h1
        · have e : i + 1 + j = i + (j + 1) := by omega
          rw [e]
          exact h2
        · simpa using h3
      rw [ih (i + 1) (acc ++ [h]) hs hlen2 hpre2]
      have e : i + 1 + ps.length = i + (p :: ps).length := by
        simp only [List.length_cons]
        omega
      rw [e, List.append_assoc, List.singleton_append]

theorem discoverLoop_fetched_prefix (net : Net) (pre rest : List MaybeRootDevice)
    (handles : List WemoSwitch) (hlen : handles.length = pre.length)
    (hpre : ∀ j, j < pre.length → ∃ r resp,
      pre[j]? = some ⟨some r⟩ ∧ net.httpGet j r.URLBaseStr = .ok resp ∧
        resp.readErr = none ∧
        handles[j]? =
          some
            { Host := r.URLBaseHost
              name := (net.unmarshalSetup resp.body wemoSetupXML.zero).1.FriendlyName
              lastUpdated := 0
              Insight := wemoInsight.zero }) :
    discoverLoop net 0 (pre ++ rest) [] = discoverLoop net pre.length rest handles := by
  have h0 : ∀ j, j < pre.length → ∃ r body,
      pre[j]? = some ⟨some r⟩ ∧
        getWemoInfo net (0 + j) r.URLBaseStr = (body, none) ∧
        handles[j]? = some (handleFor net r body) := by
    intro j hj
    obtain ⟨r, resp, h1, h2, h3, h4⟩ := hpre j hj
    refine ⟨r, resp.body, h1, ?_, h4⟩
    rw [Nat.zero_add]
    exact getWemoInfo_of_fetched net j _ resp h2 h3
  have h := discoverLoop_prefix net rest pre 0 [] handles hlen h0
  simpa using h

theorem Discover_eq_loop (net : Net) (devices : List MaybeRootDevice)
    (hdisc : net.discoverDevices basicEventURN = (devices, none)) :
    Discover net = discoverLoop net 0 devices [] := by
  unfold Discover
  have hd2 : net.discoverDevices "urn:Belkin:service:basicevent:1".toList = (devices, none) :=
    hdisc
  rw [hd2]
  cases devices with
  | nil => simp [discoverLoop]
  | cons d ds => simp

theorem discoverLoop_error_source (net : Net) :
    ∀ (devs : List MaybeRootDevice) (i : Nat) (acc hs : List WemoSwitch) (err : GoError),
      discoverLoop net i devs acc = .returned hs (some err) →
      ∃ j r, devs[j]? = some ⟨some r⟩ ∧ fetchFails net (i + j) r.URLBaseStr err := by
  intro devs
  induction devs with
  | nil =>
    intro i acc hs err h
    simp [discoverLoop] at h
  | cons d ds ih =>
    intro i acc hs err h
    unfold discoverLoop at h
    cases hroot : d.Root with
    | none =>
      rw [hroot] at h
      simp at h
    | some root =>
      rw [hroot] at h
      simp only at h
      cases hf : getWemoInfo net i root.URLBaseStr with
      | mk body e =>
        rw [hf] at h
        cases e with
        | some e1 =>
          simp only [DiscoverResult.returned.injEq, Option.some.injEq] at h
          have he : (getWemoInfo net i root.URLBaseStr).2 = some err := by
            rw [hf, ← h.2]
          refine ⟨0, root, ?_, ?_⟩
          · have hd : d = ⟨some root⟩ := by
              cases d
              simp only at hroot
              rw [hroot]
            simp [hd]
          · exact fetchFails_of_getWemoInfo net (i + 0) _ err he
        | none =>
          simp only at h
          obtain ⟨j, r, h1, h2⟩ := ih (i + 1) _ hs err h
          refine ⟨j + 1, r, ?_, ?_⟩
          · simpa using h1
          · have e : i + (j + 1) = i + 1 + j := by omega
            rw [e]
            exact h2

theorem discoverLoop_dropDecodeErrors (net : Net) :
    ∀ (devs : List MaybeRootDevice) (i : Nat) (acc : List WemoSwitch),
      discoverLoop net.dropDecodeErrors i devs acc = discoverLoop net i devs acc := by
  intro devs
  induction devs with
  | nil => intro i acc; rfl
  | cons d ds ih =>
    intro i acc
    have hg : ∀ url, getWemoInfo net.dropDecodeErrors i url = getWemoInfo net i url :=
      fun _ => rfl
    unfold discoverLoop
    cases hroot : d.Root with
    | none => rfl
    | some root =>
      simp only [hg]
      cases hf : getWemoInfo net i root.URLBaseStr with
      | mk body e =>
        cases e with
        | some e1 => rfl
        | none =>
          simp only
          exact ih (i + 1) _

/-- C7.  For every list of discovered devices `pre ++ d :: post` in which every device
of `pre` has its `Root` set and its setup description fetched (`http.Get` and the
reading of the body both succeed), while `d`, at position `pre.length`, has its `Root`
set and its fetch fails with `err` (`http.Get` fails, or reading the body fails),
`Discover` returns `err` together with exactly the list `handles` of the handles of the
devices of `pre`, in their order, each with the host of its device and the friendly
name decoded from the body fetched for it; no device from `d` on has a handle in it. -/
theorem Discover_stops_at_first_failed_fetch (net : Net) (pre post : List MaybeRootDevice)
    (d : MaybeRootDevice) (root : RootDevice) (err : GoError) (handles : List WemoSwitch)
    (hdisc : net.discoverDevices basicEventURN = (pre ++ d :: post, none))
    (hlen : handles.length = pre.length)
    (hpre : ∀ j, j < pre.length → ∃ r resp,
      pre[j]? = some ⟨some r⟩ ∧ net.httpGet j r.URLBaseStr = .ok resp ∧
        resp.readErr = none ∧
        handles[j]? =
          some
            { Host := r.URLBaseHost
              name := (net.unmarshalSetup resp.body wemoSetupXML.zero).1.FriendlyName
              lastUpdated := 0
              Insight := wemoInsight.zero })
    (hroot : d.Root = some root)
    (hfail :
      net.httpGet pre.length root.URLBaseStr = .error err ∨
        ∃ resp, net.httpGet pre.length root.URLBaseStr = .ok resp ∧
          resp.readErr = some err) :
    Discover net = .returned handles (some err) := by
  rw [Discover_eq_loop net _ hdisc,
    discoverLoop_fetched_prefix net pre (d :: post) handles hlen hpre]
  have hf := getWemoInfo_of_fetchFails net pre.length root.URLBaseStr err hfail
  cases hg : getWemoInfo net pre.length root.URLBaseStr with
  | mk body e =>
    rw [hg] at hf
    simp only at hf
    subst hf
    simp only [discoverLoop, hroot, hg]

/-- C7, the example: three devices. When `http.Get` fails for the second, `Discover`
returns that error and the one handle of the first device; likewise when `http.Get`
succeeds for the second and reading its body fails. -/
theorem Discover_second_fetch_fails_witness :
    Discover secondFetchFailsNet =
        .returned
          [{ Host := "10.0.0.1:49153".toList
             name := "Lamp".toList
             lastUpdated := 0
             Insight := wemoInsight.zero }]
          (some ⟨"timeout".toList⟩) ∧
      Discover secondReadFailsNet =
        .returned
          [{ Host := "10.0.0.1:49153".toList
             name := "Lamp".toList
             lastUpdated := 0
             Insight := wemoInsight.zero }]
          (some ⟨"unexpected EOF".toList⟩) :=
  ⟨Discover_stops_at_first_failed_fetch secondFetchFailsNet
      [⟨some ⟨"http://10.0.0.1:49153/setup.xml".toList, "10.0.0.1:49153".toList⟩⟩]
      [⟨some ⟨"http://10.0.0.3:49153/setup.xml".toList, "10.0.0.3:49153".toList⟩⟩]
      ⟨some ⟨"http://10.0.0.2:49153/setup.xml".toList, "10.0.0.2:49153".toList⟩⟩
      ⟨"http://10.0.0.2:49153/setup.xml".toList, "10.0.0.2:49153".toList⟩
      ⟨"timeout".toList⟩ _ (by decide) (by decide)
      (fun j hj =>
        ⟨⟨"http://10.0.0.1:49153/setup.xml".toList, "10.0.0.1:49153".toList⟩,
          ⟨"<root>...</root>".toList, none⟩, by
            have h0 : j = 0 := by simpa using hj
            subst h0
            decide⟩)
      (by decide) (Or.inl (by decide)),
    Discover_stops_at_first_failed_fetch secondReadFailsNet
      [⟨some ⟨"http://10.0.0.1:49153/setup.xml".toList, "10.0.0.1:49153".toList⟩⟩]
      [⟨some ⟨"http://10.0.0.3:49153/setup.xml".toList, "10.0.0.3:49153".toList⟩⟩]
      ⟨some ⟨"http://10.0.0.2:49153/setup.xml".toList, "10.0.0.2:49153".toList⟩⟩
      ⟨"http://10.0.0.2:49153/setup.xml".toList, "10.0.0.2:49153".toList⟩
      ⟨"unexpected EOF".toList⟩ _ (by decide) (by decide)
      (fun j hj =>
        ⟨⟨"http://10.0.0.1:49153/setup.xml".toList, "10.0.0.1:49153".toList⟩,
          ⟨"<root>...</root>".toList, none⟩, by
            have h0 : j = 0 := by simpa using hj
            subst h0
            decide⟩)
      (by decide)
      (Or.inr ⟨⟨"<ro".toList, some ⟨"unexpected EOF".toList⟩⟩, by decide, by decide⟩)⟩

/-- C10 (as amended).  A setup description that fails to decode as XML never makes
`Discover` abort, whatever the list of discovered devices `pre ++ rest`: the error of
`xml.Unmarshal` is discarded.  Let `pre` be devices with `Root` set whose setup
descriptions are fetched (`http.Get` and the reading of the body both succeed), and
`handles` their handles in order, each with the host of its device and the friendly
name the decoder left for the fetched body.  Then `Discover`
* returns `handles` and no error when no device follows;
* returns `handles` and the fetch error when the next device has its `Root` set and its
  fetch fails;
* ends in a nil dereference when the next device has no `Root`.
Whenever `Discover` returns an error it is the error of a failed fetch of some device;
and `Discover` returns the same in the world in which no decoding reports an error. -/
theorem Discover_ignores_decode_errors (net : Net) (pre rest : List MaybeRootDevice)
    (handles : List WemoSwitch)
    (hdisc : net.discoverDevices basicEventURN = (pre ++ rest, none))
    (hlen : handles.length = pre.length)
    (hpre : ∀ j, j < pre.length → ∃ r resp,
      pre[j]? = some ⟨some r⟩ ∧ net.httpGet j r.URLBaseStr = .ok resp ∧
        resp.readErr = none ∧
        handles[j]? =
          some
            { Host := r.URLBaseHost
              name := (net.unmarshalSetup resp.body wemoSetupXML.zero).1.FriendlyName
              lastUpdated := 0
              Insight := wemoInsight.zero }) :
    (rest = [] → Discover net = .returned handles none) ∧
      (∀ d post r err, rest = d :: post → d.Root = some r →
        (net.httpGet pre.length r.URLBaseStr = .error err ∨
          ∃ resp, net.httpGet pre.length r.URLBaseStr = .ok resp ∧
            resp.readErr = some err) →
        Discover net = .returned handles (some err)) ∧
      (∀ d post, rest = d :: post → d.Root = none → Discover net = .nilDeref) ∧
      (∀ hs err, Discover net = .returned hs (some err) →
        ∃ k r, (pre ++ rest)[k]? = some ⟨some r⟩ ∧
          (net.httpGet k r.URLBaseStr = .error err ∨
            ∃ resp, net.httpGet k r.URLBaseStr = .ok resp ∧ resp.readErr = some err)) ∧
      Discover net.dropDecodeErrors = Discover net := by
  have hD := Discover_eq_loop net _ hdisc
  have hP := discoverLoop_fetched_prefix net pre rest handles hlen hpre
  refine ⟨?_, ?_, ?_, ?_, ?_⟩
  · intro hr
    rw [hD, hP, hr]
    rfl
  · intro d post r err hr hroot hfail
    rw [hD, hP, hr]
    have hf := getWemoInfo_of_fetchFails net pre.length r.URLBaseStr err hfail
    cases hg : getWemoInfo net pre.length r.URLBaseStr with
    | mk body e =>
      rw [hg] at hf
      simp only at hf
      subst hf
      simp only [discoverLoop, hroot, hg]
  · intro d post hr hroot
    rw [hD, hP, hr]
    simp only [discoverLoop, hroot]
  · intro hs err h
    rw [hD] at h
    obtain ⟨j, r, h1, h2⟩ := discoverLoop_error_source net _ 0 [] hs err h
    rw [Nat.zero_add] at h2
    exact ⟨j, r, h1, h2⟩
  · have hdisc2 : net.dropDecodeErrors.discoverDevices basicEventURN = (pre ++ rest, none) :=
      hdisc
    rw [Discover_eq_loop net.dropDecodeErrors _ hdisc2, hD]
    exact discoverLoop_dropDecodeErrors net _ 0 []

/-- C10, examples of the amended claim: in `garbageNet` the setup description of the one
device does not decode, and `Discover` returns its handle, with the empty name, and no
error; in `nilRootNet` the first device gets its handle in the same way and the second,
without `Root`, ends `Discover` in a nil dereference. -/
theorem Discover_ignores_decode_errors_witness :
    Discover garbageNet =
        .returned
          [{ Host := "192.168.1.20:49153".toList
             name := []
             lastUpdated := 0
             Insight := wemoInsight.zero }]
          none ∧
      Discover nilRootNet = .nilDeref :=
  ⟨(Discover_ignores_decode_errors garbageNet
      [⟨some ⟨"http://192.168.1.20:49153/setup.xml".toList, "192.168.1.20:49153".toList⟩⟩] []
      _ (by decide) (by decide)
      (fun j hj =>
        ⟨⟨"http://192.168.1.20:49153/setup.xml".toList, "192.168.1.20:49153".toList⟩,
          ⟨"not xml".toList, none⟩, by
            have h0 : j = 0 := by simpa using hj
            subst h0
            decide⟩)).1 rfl,
    (Discover_ignores_decode_errors nilRootNet
      [⟨some ⟨"http://10.0.0.1:49153/setup.xml".toList, "10.0.0.1:49153".toList⟩⟩] [⟨none⟩]
      [{ Host := "10.0.0.1:49153".toList
         name := []
         lastUpdated := 0
         Insight := wemoInsight.zero }]
      (by decide) (by decide)
      (fun j hj =>
        ⟨⟨"http://10.0.0.1:49153/setup.xml".toList, "10.0.0.1:49153".toList⟩,
          ⟨"not xml".toList, none⟩, by
            have h0 : j = 0 := by simpa using hj
            subst h0
            decide⟩)).2.2.1 ⟨none⟩ [] rfl rfl⟩

/-- C10 as stated fails: in `garbageNet` the setup description fetched for the one
device fails to decode, yet `Discover` returns no error, and a handle built from that
description. -/
theorem Discover_decode_error_counterexample :
    garbageNet.httpGet 0 "http://192.168.1.20:49153/setup.xml".toList =
        .ok ⟨"not xml".toList, none⟩ ∧
      (garbageNet.unmarshalSetup "not xml".toList wemoSetupXML.zero).2 = some ⟨"EOF".toList⟩ ∧
      Discover garbageNet =
        .returned
          [{ Host := "192.168.1.20:49153".toList
             name := []
             lastUpdated := 0
             Insight := wemoInsight.zero }]
          none := by
  decide

end Wemo
